import Mathlib

/-!
Shallow embedding of the shapefile reprojection service (`src/app.py`):
a Flask app with two core functions, `check_shapefile_completeness` and
`reproject_shapefile`, and two HTTP handlers, `reproject_api`
(POST /reproject_shapefile) and `download_file` (GET /download_file/<id>),
sharing an in-memory `temp_file_store`.

The file system is modelled explicitly: paths are an inductive type whose
`scratch n` constructor stands for the n-th directory returned by
`tempfile.mkdtemp` in a run (mkdtemp returns fresh, distinct directories;
the counter in `FS.next` models that freshness).  Zip archives are lists of
named entries.  The external geospatial engine (geopandas/pyproj) is a
black box per the spec and is modelled by a `GeoBackend` record; theorems
that depend on its behaviour use the `concreteBackend` model, which follows
the spec's description of the engine (reads a layer and its source CRS,
rewrites it in the target CRS, writes a shapefile bundle).
-/

namespace TransformationTool

/-! ### Python string operations used by `app.py` -/

/-- Python `str.lower` (restricted to per-character lowering). -/
def pyLower (s : String) : String := ⟨s.data.map Char.toLower⟩

/-- Python `str.endswith`. -/
def pyEndsWith (s suffix : String) : Bool := suffix.data.isSuffixOf s.data

/-- Python `os.path.splitext`: splits at the last dot, except that a dot
preceded only by dots (as in `.shp` or `..shp`) is part of the name, not an
extension separator — `splitext('.cshrc') = ('.cshrc', '')`.  It is applied
in this development only to final path components (zip entry names), where
the last dot of the whole path is the last dot of the component. -/
def pySplitext (s : String) : String × String :=
  let r := s.data.reverse
  let extRev := r.takeWhile (fun c => c ≠ '.')
  if extRev.length = r.length then (s, "")
  else if (r.drop (extRev.length + 1)).all (fun c => c = '.') then (s, "")
  else (⟨(r.drop (extRev.length + 1)).reverse⟩, ⟨'.' :: extRev.reverse⟩)

/-- A base name usable as a flat file stem: not made of dots alone (so in
particular non-empty, and `os.path.splitext` splits `base ++ ".shp"` at the
final dot) and free of `/` (so `zipfile.extractall` places `base ++ ext` as
a direct top-level child of the extraction directory, which is how the file
system model treats zip entries). -/
def flatStem (base : String) : Bool :=
  !(base.data.all (fun c => c = '.')) && base.data.all (fun c => c ≠ '/')

/-- Python `target_crs.replace(":", "")`. -/
def stripColons (s : String) : String := ⟨s.data.filter (fun c => c ≠ ':')⟩

/-- Characters kept by werkzeug's `secure_filename`: ASCII letters, digits,
dot, dash, underscore. -/
def filenameChar (c : Char) : Bool :=
  decide ((65 ≤ c.toNat ∧ c.toNat ≤ 90) ∨ (97 ≤ c.toNat ∧ c.toNat ≤ 122)
    ∨ (48 ≤ c.toNat ∧ c.toNat ≤ 57) ∨ c = '.' ∨ c = '-' ∨ c = '_')

/-- Modelled from the external werkzeug `secure_filename`: keeps only
filename-safe characters (drops path separators and unsafe characters). -/
def secure_filename (s : String) : String := ⟨s.data.filter filenameChar⟩

/-! ### Paths and the file system -/

/-- A file-system path.  `scratch n` is the n-th `tempfile.mkdtemp`
directory of the run; `sub d name` is `os.path.join(d, name)`;
`given s` is any other externally supplied path. -/
inductive Path where
  | scratch (n : Nat)
  | given (s : String)
  | sub (dir : Path) (name : String)
deriving DecidableEq

/-- The path as the string Python sees (mkdtemp directories are rendered
with their index). -/
def Path.toStr : Path → String
  | .scratch n => "/tmp/tmp" ++ toString n
  | .given s => s
  | .sub d name => d.toStr ++ "/" ++ name

/-- Python `os.path.basename` (externally supplied paths are used whole:
they play the role of a bare file name here). -/
def Path.basename : Path → String
  | .scratch n => "tmp" ++ toString n
  | .given s => s
  | .sub _ name => name

/-- The root of a path: the mkdtemp directory or external path it hangs off. -/
def Path.root : Path → Path
  | .scratch n => .scratch n
  | .given s => .given s
  | .sub d _ => d.root

/-- The path's root, if a scratch directory, has index below `n`: the path
was formed before the n-th mkdtemp call. -/
def Path.rootFresh (p : Path) (n : Nat) : Bool :=
  match p.root with
  | .scratch k => decide (k < n)
  | _ => true

/-- `p` is `d` or lies underneath `d` (what `shutil.rmtree d` removes). -/
def Path.inDir : Path → Path → Bool
  | .scratch n, d => decide (Path.scratch n = d)
  | .given s, d => decide (Path.given s = d)
  | .sub p' name, d => decide (Path.sub p' name = d) || p'.inDir d

/-- Abstract geodata carried by a shapefile: its CRS metadata and an opaque
payload standing for geometries plus attribute data. -/
structure GeoData where
  crs : Option String
  features : Nat
deriving DecidableEq

/-- A file's content: a zip archive with named entries, a geodata-bearing
file (the `.shp` of a bundle), or anything else. -/
inductive File where
  | zip (entries : List (String × File))
  | geo (g : GeoData)
  | plain

/-- The file system: files with contents, directories, and the index of the
next `tempfile.mkdtemp` directory. -/
structure FS where
  files : List (Path × File)
  dirs : List Path
  next : Nat

/-- `tempfile.mkdtemp`: a fresh scratch directory. -/
def FS.mkdtemp (fs : FS) : Path × FS :=
  (.scratch fs.next, { fs with dirs := .scratch fs.next :: fs.dirs, next := fs.next + 1 })

/-- Write a file (Python `file.save`, `zf.write`, ...). -/
def FS.addFile (fs : FS) (p : Path) (f : File) : FS :=
  { fs with files := fs.files ++ [(p, f)] }

/-- Look up a file's content. -/
def FS.findFile (fs : FS) (p : Path) : Option File :=
  (fs.files.find? (fun e => decide (e.1 = p))).map (·.2)

/-- Python `os.path.isfile`. -/
def FS.isfile (fs : FS) (p : Path) : Bool := (fs.findFile p).isSome

/-- Directory existence. -/
def FS.dirExists (fs : FS) (d : Path) : Bool := fs.dirs.any (fun x => decide (x = d))

/-- Python `os.path.exists`. -/
def FS.pathExists (fs : FS) (p : Path) : Bool := fs.isfile p || fs.dirExists p

/-- The name under which `p` is a direct child of `d`, if it is one. -/
def childName (d p : Path) : Option String :=
  match p with
  | .sub d' name => if d' = d then some name else none
  | _ => none

/-- Python `os.listdir`: names of the direct children of `d` (files and
directories), in file-system order. -/
def FS.listdir (fs : FS) (d : Path) : List String :=
  fs.files.filterMap (fun e => childName d e.1) ++ fs.dirs.filterMap (childName d)

/-- Python `shutil.rmtree`: removes `d` and everything under it. -/
def FS.rmtree (fs : FS) (d : Path) : FS :=
  { fs with files := fs.files.filter (fun e => !(e.1.inDir d)),
            dirs := fs.dirs.filter (fun x => !(x.inDir d)) }

/-- Python `zip_ref.extractall(d)` for an archive whose entry names are
flat (no `/`): each entry becomes a direct top-level child of `d`.  A real
archive may carry slash-separated entry names, which `extractall` places in
subdirectories invisible to the top-level `os.listdir` scan; such archives
are outside this model, and the bundle theorems accordingly restrict base
names to `flatStem` stems, whose entry names are slash-free. -/
def FS.extractall (fs : FS) (d : Path) (entries : List (String × File)) : FS :=
  { fs with files := fs.files ++ entries.map (fun e => (Path.sub d e.1, e.2)) }

/-- Python `os.makedirs(d, exist_ok=True)`. -/
def FS.makedirs (fs : FS) (d : Path) : FS :=
  if fs.dirExists d then fs else { fs with dirs := d :: fs.dirs }

/-- Python `zipfile.is_zipfile`. -/
def FS.is_zipfile (fs : FS) (p : Path) : Bool :=
  match fs.findFile p with
  | some (.zip _) => true
  | _ => false

/-- Well-formedness: every recorded path was formed from mkdtemp directories
already handed out (scratch index below `next`). -/
def FS.wf (fs : FS) : Bool :=
  fs.files.all (fun e => e.1.rootFresh fs.next) && fs.dirs.all (fun d => d.rootFresh fs.next)

/-! ### Errors -/

/-- The Python exception classes `app.py` distinguishes: `ValueError` and
`FileNotFoundError` are caught as HTTP 400 by the handler, anything else
falls to the generic `Exception` arm (HTTP 500). -/
inductive PyError where
  | valueError (msg : String)
  | fileNotFoundError (msg : String)
  | otherError (msg : String)
deriving DecidableEq

/-! ### The two core functions -/

/-- `required_exts` from `check_shapefile_completeness`. -/
def required_exts : List String := [".shp", ".shx", ".dbf", ".prj"]

/-- `check_shapefile_completeness(zip_path)` from `app.py`: validates the
name/zip-ness of the archive, extracts it into a fresh scratch directory,
finds a `.shp`, and checks the mandatory sidecars; any exception raised
after the scratch directory exists removes it before propagating. -/
def check_shapefile_completeness (fs : FS) (zip_path : Path) :
    Except PyError (Path × Path) × FS :=
  if !(pyEndsWith (pyLower zip_path.toStr) ".zip") then
    (.error (.valueError "Input must be a zipped shapefile"), fs)
  else if !(fs.is_zipfile zip_path) then
    (.error (.valueError "The provided file is not a valid zip archive."), fs)
  else
    let (temp_dir, fs1) := fs.mkdtemp
    match fs1.findFile zip_path with
    | some (.zip entries) =>
      let fs2 := fs1.extractall temp_dir entries
      let shp_files := (fs2.listdir temp_dir).filter (fun f => pyEndsWith (pyLower f) ".shp")
      match shp_files with
      | [] =>
        (.error (.fileNotFoundError "No .shp file found in the zipped folder."),
         fs2.rmtree temp_dir)
      | shpName :: _ =>
        let stem := (pySplitext shpName).1
        let missing :=
          required_exts.filter (fun e => !(fs2.pathExists (.sub temp_dir (stem ++ e))))
        if missing.isEmpty then
          (.ok (.sub temp_dir shpName, temp_dir), fs2)
        else
          (.error (.fileNotFoundError
             ("Incomplete shapefile. Missing: " ++ String.intercalate ", " missing)),
           fs2.rmtree temp_dir)
    | _ => (.error (.otherError "BadZipFile"), fs1.rmtree temp_dir)

/-- The external geospatial engine (geopandas/pyproj), a black box per the
spec: reading a vector layer from a file, reprojecting it, and the set of
bundle files `gdf.to_file` writes for a given `.shp` name. -/
structure GeoBackend where
  read_file : Option File → Except PyError GeoData
  to_crs : GeoData → String → Except PyError GeoData
  to_file : GeoData → String → List (String × File)

/-- The spec's model of the engine: `read_file` reads the geodata of a
`.shp` file, `to_crs` rewrites the layer's CRS to the target (attribute
data carried through unchanged), `to_file` writes one complete shapefile
bundle next to the given `.shp` name. -/
def concreteBackend : GeoBackend where
  read_file f :=
    match f with
    | some (.geo g) => .ok g
    | _ => .error (.otherError "not a readable shapefile")
  to_crs g target := .ok { g with crs := some target }
  to_file g shpName :=
    let stem := (pySplitext shpName).1
    [(stem ++ ".shp", .geo g), (stem ++ ".shx", .plain),
     (stem ++ ".dbf", .plain), (stem ++ ".prj", .plain)]

/-- `reproject_shapefile(zip_path, target_crs)` from `app.py`: validates,
loads the layer, refuses a layer with no CRS, reprojects, writes the output
bundle under `temp_dir/reprojected`, and packs it into a zip named from the
target CRS inside a second fresh scratch directory.  Any exception after
validation removes the input scratch directory (if it still exists) before
propagating; a validation error propagates unchanged (the `temp_dir`
variable is still `None` there, so the `except` arm does not delete). -/
def reproject_shapefile (B : GeoBackend) (fs : FS) (zip_path : Path) (target_crs : String) :
    Except PyError (Path × Path × Path) × FS :=
  match check_shapefile_completeness fs zip_path with
  | (.error e, fs1) => (.error e, fs1)
  | (.ok (shp_path, temp_dir), fs1) =>
    let cleanup : FS → FS := fun f => if f.dirExists temp_dir then f.rmtree temp_dir else f
    match B.read_file (fs1.findFile shp_path) with
    | .error e => (.error e, cleanup fs1)
    | .ok gdf =>
      match gdf.crs with
      | none => (.error (.valueError "No CRS information found in shapefile."), cleanup fs1)
      | some _ =>
        match B.to_crs gdf target_crs with
        | .error e => (.error e, cleanup fs1)
        | .ok gdf2 =>
          let out_dir := Path.sub temp_dir "reprojected"
          let fs2 := fs1.makedirs out_dir
          let written := B.to_file gdf2 shp_path.basename
          let fs3 := fs2.extractall out_dir written
          let (temp_output_dir, fs4) := fs3.mkdtemp
          let output_zip_path :=
            Path.sub temp_output_dir ("reprojected_" ++ stripColons target_crs ++ ".zip")
          let zentries :=
            ((fs4.listdir out_dir).filter (fun f => fs4.isfile (.sub out_dir f))).map
              (fun f => (f, (fs4.findFile (.sub out_dir f)).getD .plain))
          let fs5 := fs4.addFile output_zip_path (.zip zentries)
          (.ok (output_zip_path, temp_dir, temp_output_dir), fs5)

/-! ### The web layer -/

/-- One entry of `temp_file_store`: `{'path': ..., 'temp_dirs': [...]}`. -/
structure TransferRecord where
  path : Path
  temp_dirs : List Path
deriving DecidableEq

/-- The process state the handlers share: the file system and
`temp_file_store`. -/
structure ServerState where
  fs : FS
  store : List (String × TransferRecord)

/-- Python `temp_file_store.get(k)`. -/
def storeLookup (store : List (String × TransferRecord)) (k : String) :
    Option TransferRecord :=
  (store.find? (fun e => decide (e.1 = k))).map (·.2)

/-- Python `temp_file_store[k] = v` (dict write: replaces any old entry). -/
def storeInsert (store : List (String × TransferRecord)) (k : String) (v : TransferRecord) :
    List (String × TransferRecord) :=
  (k, v) :: store.filter (fun e => !(decide (e.1 = k)))

/-- Python `del temp_file_store[k]`. -/
def storeErase (store : List (String × TransferRecord)) (k : String) :
    List (String × TransferRecord) :=
  store.filter (fun e => !(decide (e.1 = k)))

/-- The uploaded multipart file: `request.files['file']`. -/
structure UploadedFile where
  filename : String
  content : File

/-- A POST /reproject_shapefile request: the optional `file` part, the
optional `target_crs` form field, and `request.host_url`. -/
structure UploadRequest where
  file : Option UploadedFile
  target_crs : Option String
  host_url : String

/-- The JSON body of an upload response: `{"error": ...}` or
`{"message": ..., "download_link": ...}`. -/
inductive ApiBody where
  | err (error : String)
  | ok (message : String) (download_link : String)

/-- An upload response: body plus HTTP status, as the handler's
`jsonify(...), code` pairs. -/
abbrev ApiResponse := ApiBody × Nat

/-- `reproject_api()` from `app.py`, the POST /reproject_shapefile handler.
Parameterised by the engine `B` and by the external `pyproj.CRS` parse
test `crsParses` (`CRS(target_crs)` succeeding). -/
def reproject_api (B : GeoBackend) (crsParses : String → Bool) (st : ServerState)
    (req : UploadRequest) : ApiResponse × ServerState :=
  match req.file with
  | none => ((.err "No file part in the request", 400), st)
  | some file =>
    if file.filename = "" || !(pyEndsWith (pyLower file.filename) ".zip") then
      ((.err "No selected file or invalid file type. Please upload a .zip file.", 400), st)
    else
      match req.target_crs with
      | none => ((.err "Missing 'target_crs' parameter", 400), st)
      | some target_crs =>
        if target_crs = "" then ((.err "Missing 'target_crs' parameter", 400), st)
        else if !(crsParses target_crs) then
          ((.err ("Invalid target CRS: '" ++ target_crs ++ "'. Example: EPSG:4326"), 400), st)
        else
          let (temp_upload_dir, fs1) := st.fs.mkdtemp
          let uploaded_file_path := Path.sub temp_upload_dir (secure_filename file.filename)
          let fs2 := fs1.addFile uploaded_file_path file.content
          match reproject_shapefile B fs2 uploaded_file_path target_crs with
          | (.ok (output_zip_path, temp_input_dir, temp_output_dir), fs3) =>
            let file_id := output_zip_path.basename
            let store1 := storeInsert st.store file_id
              ⟨output_zip_path, [temp_upload_dir, temp_input_dir, temp_output_dir]⟩
            ((.ok "Shapefile re-projected successfully"
                (req.host_url ++ "download_file/" ++ file_id), 200),
             ⟨fs3, store1⟩)
          | (.error (.valueError msg), fs3) =>
            ((.err msg, 400), ⟨fs3.rmtree temp_upload_dir, st.store⟩)
          | (.error (.fileNotFoundError msg), fs3) =>
            ((.err msg, 400), ⟨fs3.rmtree temp_upload_dir, st.store⟩)
          | (.error (.otherError msg), fs3) =>
            ((.err ("An unexpected error occurred: " ++ msg), 500),
             ⟨fs3.rmtree temp_upload_dir, st.store⟩)

/-- The body of a download response: a JSON error or a streamed file
(`send_file`, carrying the path and the content served). -/
inductive DlBody where
  | err (error : String)
  | file (path : Path) (content : Option File)

/-- A download response: body plus HTTP status. -/
abbrev DlResponse := DlBody × Nat

/-- The `for d in file_data['temp_dirs']: shutil.rmtree(d)` loop of
`cleanup_files`: `rmtree` on a missing directory raises, which aborts the
loop (the exception is then caught and logged by the handler). -/
def cleanup_dirs : FS → List Path → FS
  | fs, [] => fs
  | fs, d :: rest => if fs.dirExists d then cleanup_dirs (fs.rmtree d) rest else fs

/-- `download_file(file_id)` from `app.py`: resolves the identifier, 404 if
unknown or the file is gone, otherwise streams the archive; after the
response is fully sent (`call_on_close`), `cleanup_files` removes the
record's scratch directories (errors logged, not surfaced) and deletes the
registry entry. -/
def download_file (st : ServerState) (file_id : String) : DlResponse × ServerState :=
  match storeLookup st.store file_id with
  | none => ((.err "File not found or has expired", 404), st)
  | some file_data =>
    if !(st.fs.pathExists file_data.path) then
      ((.err "File not found or has expired", 404), st)
    else
      ((.file file_data.path (st.fs.findFile file_data.path), 200),
       ⟨cleanup_dirs st.fs file_data.temp_dirs, storeErase st.store file_id⟩)

/-- The zip entries of a complete shapefile bundle with one base name, as
the spec describes an acceptable upload. -/
def bundleEntries (base : String) (g : GeoData) : List (String × File) :=
  [(base ++ ".shp", .geo g), (base ++ ".shx", .plain),
   (base ++ ".dbf", .plain), (base ++ ".prj", .plain)]

/-! ### Basic lemmas about the string helpers -/

lemma string_mk_data (s : String) : String.mk s.data = s := rfl

lemma pyLower_append (a b : String) : pyLower (a ++ b) = pyLower a ++ pyLower b := by
  simp only [pyLower, String.data_append, List.map_append]
  rfl

lemma pyEndsWith_iff {s t : String} : pyEndsWith s t = true ↔ t.data <:+ s.data := by
  simp [pyEndsWith, List.isSuffixOf_iff_suffix]

lemma pyEndsWith_append (a b : String) : pyEndsWith (a ++ b) b = true := by
  rw [pyEndsWith_iff, String.data_append]
  exact List.suffix_append _ _

lemma pyEndsWith_append_of {s t : String} (a : String) (h : pyEndsWith s t = true) :
    pyEndsWith (a ++ s) t = true := by
  rw [pyEndsWith_iff] at h ⊢
  rw [String.data_append]
  exact h.trans (List.suffix_append _ _)

lemma pyEndsWith_false_of_getLast {s t : String} {c c' : Char}
    (h1 : s.data.getLast? = some c) (h2 : t.data.getLast? = some c') (hne : c ≠ c') :
    pyEndsWith s t = false := by
  rw [Bool.eq_false_iff]
  intro h
  rw [pyEndsWith_iff] at h
  obtain ⟨u, hu⟩ := h
  rw [← hu, List.getLast?_append, h2] at h1
  exact hne (by simpa using h1.symm)

lemma getLast_append_str (a b : String) {c : Char} (h : b.data.getLast? = some c) :
    (a ++ b).data.getLast? = some c := by
  rw [String.data_append, List.getLast?_append, h]
  rfl

lemma pyLower_shp (b : String) : pyLower (b ++ ".shp") = pyLower b ++ ".shp" := by
  rw [pyLower_append]; rfl

lemma pyLower_shx (b : String) : pyLower (b ++ ".shx") = pyLower b ++ ".shx" := by
  rw [pyLower_append]; rfl

lemma pyLower_dbf (b : String) : pyLower (b ++ ".dbf") = pyLower b ++ ".dbf" := by
  rw [pyLower_append]; rfl

lemma pyLower_prj (b : String) : pyLower (b ++ ".prj") = pyLower b ++ ".prj" := by
  rw [pyLower_append]; rfl

lemma endsShp_shp (b : String) : pyEndsWith (pyLower (b ++ ".shp")) ".shp" = true := by
  rw [pyLower_shp]; exact pyEndsWith_append _ _

lemma endsShx_not_shp (b : String) : pyEndsWith (pyLower (b ++ ".shx")) ".shp" = false := by
  rw [pyLower_shx]
  exact pyEndsWith_false_of_getLast (getLast_append_str _ _ (by rfl)) (by rfl) (by decide)

lemma endsDbf_not_shp (b : String) : pyEndsWith (pyLower (b ++ ".dbf")) ".shp" = false := by
  rw [pyLower_dbf]
  exact pyEndsWith_false_of_getLast (getLast_append_str _ _ (by rfl)) (by rfl) (by decide)

lemma endsPrj_not_shp (b : String) : pyEndsWith (pyLower (b ++ ".prj")) ".shp" = false := by
  rw [pyLower_prj]
  exact pyEndsWith_false_of_getLast (getLast_append_str _ _ (by rfl)) (by rfl) (by decide)

lemma string_append_right_cancel {b : String} {x y : String} (h : b ++ x = b ++ y) : x = y := by
  have h2 : (b ++ x).data = (b ++ y).data := congrArg String.data h
  rw [String.data_append, String.data_append] at h2
  exact congrArg String.mk (List.append_cancel_left h2)

lemma string_append_ne {b : String} {x y : String} (h : x ≠ y) : b ++ x ≠ b ++ y :=
  fun hc => h (string_append_right_cancel hc)

lemma flatStem_not_dots {b : String} (h : flatStem b = true) :
    (b.data.all (fun c => c = '.')) = false := by
  rw [flatStem, Bool.and_eq_true] at h
  have h1 := h.1
  rw [Bool.not_eq_true'] at h1
  exact h1

lemma pySplitext_shp (b : String) (hb : (b.data.all (fun c => c = '.')) = false) :
    pySplitext (b ++ ".shp") = (b, ".shp") := by
  simp only [pySplitext, String.data_append]
  have hrev : (b.data ++ (".shp").data).reverse = 'p' :: 'h' :: 's' :: '.' :: b.data.reverse := by
    rw [List.reverse_append]; rfl
  rw [hrev]
  have htw : ('p' :: 'h' :: 's' :: '.' :: b.data.reverse).takeWhile (fun c => c ≠ '.')
      = ['p', 'h', 's'] := by
    simp [List.takeWhile_cons]
  rw [htw]
  have hlen : (['p', 'h', 's'] : List Char).length ≠
      ('p' :: 'h' :: 's' :: '.' :: b.data.reverse).length := by
    simp
  rw [if_neg hlen]
  have h1 : List.drop ((['p', 'h', 's'] : List Char).length + 1)
      ('p' :: 'h' :: 's' :: '.' :: b.data.reverse) = b.data.reverse := rfl
  rw [h1]
  have hdots : (b.data.reverse.all (fun c => c = '.')) = false := by
    rw [List.all_reverse]
    exact hb
  rw [hdots]
  simp only [Bool.false_eq_true, if_false]
  rw [Prod.mk.injEq]
  exact ⟨by rw [List.reverse_reverse], rfl⟩

/-! ### Path lemmas -/

lemma root_sub (d : Path) (s : String) : (Path.sub d s).root = d.root := rfl

lemma root_scratch (n : Nat) : (Path.scratch n).root = .scratch n := rfl

lemma root_eq_of_inDir {p d : Path} (h : p.inDir d = true) : p.root = d.root := by
  induction p with
  | scratch n =>
    rw [Path.inDir, decide_eq_true_eq] at h
    rw [← h]
  | given s =>
    rw [Path.inDir, decide_eq_true_eq] at h
    rw [← h]
  | sub p' name ih =>
    rw [Path.inDir, Bool.or_eq_true, decide_eq_true_eq] at h
    rcases h with h | h
    · rw [← h]
    · rw [root_sub]; exact ih h

lemma inDir_self (d : Path) : d.inDir d = true := by
  cases d <;> simp [Path.inDir]

lemma sub_inDir (d : Path) (s : String) : (Path.sub d s).inDir d = true := by
  rw [Path.inDir, Bool.or_eq_true]
  exact Or.inr (inDir_self d)

lemma rootFresh_mono {p : Path} {n m : Nat} (h : p.rootFresh n = true) (hnm : n ≤ m) :
    p.rootFresh m = true := by
  rw [Path.rootFresh] at h ⊢
  split at h <;> simp_all
  omega

lemma not_inDir_of_rootFresh {p d : Path} {n k : Nat} (hp : p.rootFresh n = true)
    (hd : d.root = .scratch k) (hnk : n ≤ k) : p.inDir d = false := by
  rw [Bool.eq_false_iff]
  intro hc
  have hr := root_eq_of_inDir hc
  rw [hd] at hr
  rw [Path.rootFresh, hr] at hp
  simp at hp
  omega

lemma ne_of_rootFresh {p q : Path} {n k : Nat} (hp : p.rootFresh n = true)
    (hq : q.root = .scratch k) (hnk : n ≤ k) : p ≠ q := by
  intro hc
  rw [Path.rootFresh, hc, hq] at hp
  simp at hp
  omega

lemma childName_none_of_rootFresh {p d : Path} {n k : Nat} (hp : p.rootFresh n = true)
    (hd : d.root = .scratch k) (hnk : n ≤ k) : childName d p = none := by
  cases p with
  | scratch m => rfl
  | given s => rfl
  | sub p' name =>
    rw [childName]
    split
    · next he =>
      exfalso
      rw [Path.rootFresh, root_sub, he, hd] at hp
      simp at hp
      omega
    · rfl

lemma childName_sub (d : Path) (s : String) : childName d (.sub d s) = some s := by
  rw [childName, if_pos rfl]

/-! ### Well-formedness accessors -/

lemma wf_files {fs : FS} (hwf : fs.wf = true) :
    ∀ e ∈ fs.files, e.1.rootFresh fs.next = true := by
  rw [FS.wf, Bool.and_eq_true, List.all_eq_true, List.all_eq_true] at hwf
  exact hwf.1

lemma wf_dirs {fs : FS} (hwf : fs.wf = true) :
    ∀ d ∈ fs.dirs, d.rootFresh fs.next = true := by
  rw [FS.wf, Bool.and_eq_true, List.all_eq_true, List.all_eq_true] at hwf
  exact hwf.2

/-! ### List helpers for the path-keyed association lists -/

lemma find?_path_append {l1 l2 : List (Path × File)} {p : Path}
    (h : ∀ e ∈ l1, e.1 ≠ p) :
    List.find? (fun e => decide (e.1 = p)) (l1 ++ l2)
      = List.find? (fun e => decide (e.1 = p)) l2 := by
  rw [List.find?_append]
  have hn : List.find? (fun e => decide (e.1 = p)) l1 = none := by
    rw [List.find?_eq_none]
    intro x hx
    simp only [decide_eq_true_eq]
    exact h x hx
  rw [hn, Option.none_or]

lemma filterMap_child_append {l1 l2 : List (Path × File)} {d : Path}
    (h : ∀ e ∈ l1, childName d e.1 = none) :
    List.filterMap (fun e => childName d e.1) (l1 ++ l2)
      = List.filterMap (fun e => childName d e.1) l2 := by
  rw [List.filterMap_append]
  have hn : List.filterMap (fun e => childName d e.1) l1 = [] := by
    rw [List.filterMap_eq_nil_iff]
    exact h
  rw [hn, List.nil_append]

lemma filterMap_child_nil {l : List Path} {d : Path}
    (h : ∀ p ∈ l, childName d p = none) : List.filterMap (childName d) l = [] := by
  rw [List.filterMap_eq_nil_iff]
  exact h

/-! ### Symbolic evaluation of the validator on a complete bundle -/

lemma check_bundle (fs : FS) (zp : Path) (base : String) (g : GeoData)
    (hwf : fs.wf = true)
    (hz : pyEndsWith (pyLower zp.toStr) ".zip" = true)
    (hfind : fs.findFile zp = some (.zip (bundleEntries base g)))
    (hb : (base.data.all (fun c => c = '.')) = false) :
    check_shapefile_completeness fs zp =
      (.ok (.sub (.scratch fs.next) (base ++ ".shp"), .scratch fs.next),
       ⟨fs.files ++ (bundleEntries base g).map
          (fun e => (Path.sub (.scratch fs.next) e.1, e.2)),
        .scratch fs.next :: fs.dirs, fs.next + 1⟩) := by
  have hzf : fs.is_zipfile zp = true := by rw [FS.is_zipfile, hfind]
  rw [check_shapefile_completeness, hz, hzf]
  simp only [Bool.not_true, if_false, FS.mkdtemp, Bool.false_eq_true]
  set N := fs.next with hN
  have hfresh : ∀ e ∈ fs.files, childName (Path.scratch N) e.1 = none := by
    intro e he
    exact childName_none_of_rootFresh (wf_files hwf e he) (root_scratch N) (le_refl N)
  have hfreshd : ∀ d ∈ fs.dirs, childName (Path.scratch N) d = none := by
    intro d hd
    exact childName_none_of_rootFresh (wf_dirs hwf d hd) (root_scratch N) (le_refl N)
  have hfind2 : FS.findFile ⟨fs.files, Path.scratch N :: fs.dirs, N + 1⟩ zp
      = some (.zip (bundleEntries base g)) := hfind
  rw [hfind2]
  dsimp only
  have hlist : FS.listdir
      (FS.extractall ⟨fs.files, Path.scratch N :: fs.dirs, N + 1⟩ (Path.scratch N)
        (bundleEntries base g)) (Path.scratch N)
      = [base ++ ".shp", base ++ ".shx", base ++ ".dbf", base ++ ".prj"] := by
    rw [FS.listdir, FS.extractall]
    rw [filterMap_child_append hfresh]
    have h2 : List.filterMap (childName (Path.scratch N)) (Path.scratch N :: fs.dirs) = [] := by
      rw [List.filterMap_cons]
      have : childName (Path.scratch N) (Path.scratch N) = none := rfl
      rw [this, filterMap_child_nil hfreshd]
    rw [h2, List.append_nil]
    simp [bundleEntries, childName_sub, List.filterMap_cons]
  rw [hlist]
  have hfilter : List.filter (fun f => pyEndsWith (pyLower f) ".shp")
      [base ++ ".shp", base ++ ".shx", base ++ ".dbf", base ++ ".prj"] = [base ++ ".shp"] := by
    simp only [List.filter_cons, endsShp_shp, endsShx_not_shp, endsDbf_not_shp, endsPrj_not_shp,
      if_true, if_false, List.filter_nil, Bool.false_eq_true]
  rw [hfilter]
  dsimp only
  rw [pySplitext_shp base hb]
  have hmem : ∀ x ∈ ([".shp", ".shx", ".dbf", ".prj"] : List String),
      FS.pathExists
        (FS.extractall ⟨fs.files, Path.scratch N :: fs.dirs, N + 1⟩ (Path.scratch N)
          (bundleEntries base g)) (Path.sub (Path.scratch N) (base ++ x)) = true := by
    intro x hx
    rw [FS.pathExists, Bool.or_eq_true]
    left
    rw [FS.isfile, FS.findFile, Option.isSome_map']
    rw [List.find?_isSome]
    rw [FS.extractall]
    fin_cases hx
    · exact ⟨(Path.sub (Path.scratch N) (base ++ ".shp"), .geo g),
        by simp [bundleEntries], by simp⟩
    · exact ⟨(Path.sub (Path.scratch N) (base ++ ".shx"), .plain),
        by simp [bundleEntries], by simp⟩
    · exact ⟨(Path.sub (Path.scratch N) (base ++ ".dbf"), .plain),
        by simp [bundleEntries], by simp⟩
    · exact ⟨(Path.sub (Path.scratch N) (base ++ ".prj"), .plain),
        by simp [bundleEntries], by simp⟩
  have hmiss : List.filter
      (fun e => !(FS.pathExists
        (FS.extractall ⟨fs.files, Path.scratch N :: fs.dirs, N + 1⟩ (Path.scratch N)
          (bundleEntries base g)) ((Path.scratch N).sub (base ++ e)))) required_exts = [] := by
    rw [List.filter_eq_nil_iff]
    intro a ha
    rw [required_exts] at ha
    have := hmem a ha
    rw [this]
    simp
  rw [hmiss]
  rfl

/-! ### Symbolic evaluation of the engine on a complete bundle -/

lemma childName_sub_ne {d d' : Path} (s : String) (h : d' ≠ d) :
    childName d (.sub d' s) = none := by
  rw [childName, if_neg h]

lemma any_path_eq_false {l : List Path} {n k : Nat} {q : Path}
    (h : ∀ d ∈ l, d.rootFresh n = true) (hq : q.root = .scratch k) (hnk : n ≤ k) :
    (l.any fun x => decide (x = q)) = false := by
  rw [Bool.eq_false_iff]
  intro hc
  rw [List.any_eq_true] at hc
  obtain ⟨x, hx, hxq⟩ := hc
  rw [decide_eq_true_eq] at hxq
  exact absurd hxq (ne_of_rootFresh (h x hx) hq hnk)

lemma reproject_bundle (fs : FS) (zp : Path) (base : String) (g : GeoData) (src t : String)
    (hwf : fs.wf = true)
    (hz : pyEndsWith (pyLower zp.toStr) ".zip" = true)
    (hfind : fs.findFile zp = some (.zip (bundleEntries base g)))
    (hsrc : g.crs = some src)
    (hb : (base.data.all (fun c => c = '.')) = false) :
    reproject_shapefile concreteBackend fs zp t =
      (.ok (Path.sub (.scratch (fs.next + 1)) ("reprojected_" ++ stripColons t ++ ".zip"),
            .scratch fs.next, .scratch (fs.next + 1)),
       ⟨fs.files
          ++ (bundleEntries base g).map (fun e => (Path.sub (.scratch fs.next) e.1, e.2))
          ++ (bundleEntries base ⟨some t, g.features⟩).map
               (fun e => (Path.sub (Path.sub (.scratch fs.next) "reprojected") e.1, e.2))
          ++ [(Path.sub (.scratch (fs.next + 1)) ("reprojected_" ++ stripColons t ++ ".zip"),
               .zip (bundleEntries base ⟨some t, g.features⟩))],
        .scratch (fs.next + 1) :: Path.sub (.scratch fs.next) "reprojected"
          :: .scratch fs.next :: fs.dirs,
        fs.next + 2⟩) := by
  rw [reproject_shapefile, check_bundle fs zp base g hwf hz hfind hb]
  dsimp only
  have h1 : ∀ e ∈ fs.files, e.1 ≠ Path.sub (Path.scratch fs.next) (base ++ ".shp") :=
    fun e he => ne_of_rootFresh (wf_files hwf e he) rfl (le_refl _)
  have hshp : FS.findFile
      ⟨fs.files ++ (bundleEntries base g).map
         (fun e => (Path.sub (.scratch fs.next) e.1, e.2)),
       .scratch fs.next :: fs.dirs, fs.next + 1⟩
      (Path.sub (.scratch fs.next) (base ++ ".shp")) = some (.geo g) := by
    rw [FS.findFile]
    show (List.find? _ (fs.files ++ _)).map _ = _
    rw [find?_path_append h1]
    simp [bundleEntries]
  rw [hshp]
  dsimp only [concreteBackend]
  rw [hsrc]
  dsimp only [Path.basename]
  rw [pySplitext_shp base hb]
  dsimp only
  have hmk : FS.makedirs
      ⟨fs.files ++ (bundleEntries base g).map
         (fun e => (Path.sub (.scratch fs.next) e.1, e.2)),
       .scratch fs.next :: fs.dirs, fs.next + 1⟩
      (Path.sub (.scratch fs.next) "reprojected") =
      ⟨fs.files ++ (bundleEntries base g).map
         (fun e => (Path.sub (.scratch fs.next) e.1, e.2)),
       Path.sub (.scratch fs.next) "reprojected" :: .scratch fs.next :: fs.dirs,
       fs.next + 1⟩ := by
    rw [FS.makedirs]
    have hdex : FS.dirExists
        ⟨fs.files ++ (bundleEntries base g).map
           (fun e => (Path.sub (.scratch fs.next) e.1, e.2)),
         .scratch fs.next :: fs.dirs, fs.next + 1⟩
        (Path.sub (.scratch fs.next) "reprojected") = false := by
      rw [FS.dirExists]
      show ((Path.scratch fs.next :: fs.dirs).any fun x => decide (x = _)) = false
      rw [List.any_cons, any_path_eq_false (wf_dirs hwf)
        (show (Path.sub (Path.scratch fs.next) "reprojected").root = Path.scratch fs.next
          from rfl) (le_refl _)]
      simp
    rw [hdex]
    rfl
  rw [hmk]
  dsimp only [FS.extractall, FS.mkdtemp]
  set od : Path := Path.sub (.scratch fs.next) "reprojected" with hod
  set fs4 : FS :=
    ⟨fs.files ++ List.map (fun e => ((Path.scratch fs.next).sub e.1, e.2))
         (bundleEntries base g)
       ++ List.map (fun e => (od.sub e.1, e.2))
           [(base ++ ".shp", File.geo { crs := some t, features := g.features }),
            (base ++ ".shx", File.plain), (base ++ ".dbf", File.plain),
            (base ++ ".prj", File.plain)],
     .scratch (fs.next + 1) :: od :: .scratch fs.next :: fs.dirs,
     fs.next + 1 + 1⟩ with hfs4
  have hchild1 : ∀ e ∈ fs.files ++ List.map (fun e => ((Path.scratch fs.next).sub e.1, e.2))
      (bundleEntries base g), childName od e.1 = none := by
    intro e he
    rw [List.mem_append] at he
    rcases he with he | he
    · exact childName_none_of_rootFresh (wf_files hwf e he)
        (show od.root = Path.scratch fs.next from rfl) (le_refl _)
    · rw [List.mem_map] at he
      obtain ⟨a, _, rfl⟩ := he
      exact childName_sub_ne _ (fun hc => Path.noConfusion hc)
  have hlist2 : fs4.listdir od
      = [base ++ ".shp", base ++ ".shx", base ++ ".dbf", base ++ ".prj"] := by
    rw [hfs4, FS.listdir]
    show List.filterMap _ ((_ ++ _) ++ _) ++ _ = _
    rw [filterMap_child_append hchild1]
    have hdirs : List.filterMap (childName od)
        (Path.scratch (fs.next + 1) :: od :: Path.scratch fs.next :: fs.dirs) = [] := by
      rw [List.filterMap_cons, List.filterMap_cons, List.filterMap_cons]
      have c1 : childName od (Path.scratch (fs.next + 1)) = none := rfl
      have c2 : childName od od = none :=
        childName_sub_ne _ (fun hc => Path.noConfusion hc)
      have c3 : childName od (Path.scratch fs.next) = none := rfl
      rw [c1, c2, c3, filterMap_child_nil (fun p hp =>
        childName_none_of_rootFresh (wf_dirs hwf p hp)
          (show od.root = Path.scratch fs.next from rfl) (le_refl _))]
    rw [hdirs, List.append_nil]
    simp [childName_sub]
  have hne2 : ∀ (x : String), ∀ e ∈ fs.files ++ List.map
      (fun e => ((Path.scratch fs.next).sub e.1, e.2)) (bundleEntries base g),
      e.1 ≠ od.sub x := by
    intro x e he
    rw [List.mem_append] at he
    rcases he with he | he
    · exact ne_of_rootFresh (wf_files hwf e he)
        (show (od.sub x).root = Path.scratch fs.next from rfl) (le_refl _)
    · rw [List.mem_map] at he
      obtain ⟨a, _, rfl⟩ := he
      intro hc
      rw [Path.sub.injEq] at hc
      exact Path.noConfusion hc.1
  have ha1 : base ++ ".shp" ≠ base ++ ".shx" := string_append_ne (by decide)
  have ha2 : base ++ ".shp" ≠ base ++ ".dbf" := string_append_ne (by decide)
  have ha3 : base ++ ".shp" ≠ base ++ ".prj" := string_append_ne (by decide)
  have ha4 : base ++ ".shx" ≠ base ++ ".dbf" := string_append_ne (by decide)
  have ha5 : base ++ ".shx" ≠ base ++ ".prj" := string_append_ne (by decide)
  have ha6 : base ++ ".dbf" ≠ base ++ ".prj" := string_append_ne (by decide)
  have hf1 : fs4.findFile (od.sub (base ++ ".shp"))
      = some (.geo { crs := some t, features := g.features }) := by
    rw [hfs4, FS.findFile]
    show (List.find? _ ((_ ++ _) ++ _)).map _ = _
    rw [find?_path_append (hne2 _)]
    simp
  have hf2 : fs4.findFile (od.sub (base ++ ".shx")) = some .plain := by
    rw [hfs4, FS.findFile]
    show (List.find? _ ((_ ++ _) ++ _)).map _ = _
    rw [find?_path_append (hne2 _)]
    simp [ha1]
  have hf3 : fs4.findFile (od.sub (base ++ ".dbf")) = some .plain := by
    rw [hfs4, FS.findFile]
    show (List.find? _ ((_ ++ _) ++ _)).map _ = _
    rw [find?_path_append (hne2 _)]
    simp [ha2, ha4]
  have hf4 : fs4.findFile (od.sub (base ++ ".prj")) = some .plain := by
    rw [hfs4, FS.findFile]
    show (List.find? _ ((_ ++ _) ++ _)).map _ = _
    rw [find?_path_append (hne2 _)]
    simp [ha3, ha5, ha6]
  have hzent : List.map (fun f => (f, (fs4.findFile (od.sub f)).getD File.plain))
      (List.filter (fun f => fs4.isfile (od.sub f)) (fs4.listdir od))
      = bundleEntries base { crs := some t, features := g.features } := by
    rw [hlist2]
    have hkeep : List.filter (fun f => fs4.isfile (od.sub f))
        [base ++ ".shp", base ++ ".shx", base ++ ".dbf", base ++ ".prj"]
        = [base ++ ".shp", base ++ ".shx", base ++ ".dbf", base ++ ".prj"] := by
      simp only [List.filter_cons, FS.isfile, hf1, hf2, hf3, hf4, Option.isSome_some,
        if_true, List.filter_nil]
    rw [hkeep]
    simp only [List.map_cons, List.map_nil, hf1, hf2, hf3, hf4, Option.getD_some]
    rfl
  rw [hzent]
  rfl

/-! ### The sanitiser keeps the zip suffix -/

lemma filenameChar_of_lower {c : Char} (h : Char.toLower c ∈ (['.', 'z', 'i', 'p'] : List Char)) :
    filenameChar c = true := by
  rw [filenameChar, decide_eq_true_eq]
  rw [Char.toLower] at h
  split at h
  · next hif => exact Or.inl hif
  · fin_cases h <;> decide

lemma secure_filename_zip {s : String} (h : pyEndsWith (pyLower s) ".zip" = true) :
    pyEndsWith (pyLower (secure_filename s)) ".zip" = true := by
  rw [pyEndsWith_iff] at h ⊢
  obtain ⟨u, hu⟩ := h
  have hmap : s.data.map Char.toLower = u ++ (".zip").data := hu.symm
  obtain ⟨l₁, l₂, hs, hm1, hm2⟩ := List.map_eq_append_iff.mp hmap
  have hlen : l₂.length = 4 := by
    have := congrArg List.length hm2
    simpa using this
  match l₂, hlen, hm2 with
  | [c1, c2, c3, c4], _, hm2 =>
    simp only [List.map_cons, List.map_nil] at hm2
    have hc1 : Char.toLower c1 = '.' := by injection hm2
    have hm2' := hm2
    rw [List.cons.injEq] at hm2'
    obtain ⟨-, hm3⟩ := hm2'
    rw [List.cons.injEq] at hm3
    obtain ⟨hc2, hm4⟩ := hm3
    rw [List.cons.injEq] at hm4
    obtain ⟨hc3, hm5⟩ := hm4
    rw [List.cons.injEq] at hm5
    obtain ⟨hc4, -⟩ := hm5
    have hf1 : filenameChar c1 = true := filenameChar_of_lower (by rw [hc1]; simp)
    have hf2 : filenameChar c2 = true := filenameChar_of_lower (by rw [hc2]; simp)
    have hf3 : filenameChar c3 = true := filenameChar_of_lower (by rw [hc3]; simp)
    have hf4 : filenameChar c4 = true := filenameChar_of_lower (by rw [hc4]; simp)
    show (".zip").data <:+ (secure_filename s).data.map Char.toLower
    have hsf : (secure_filename s).data = l₁.filter filenameChar ++ [c1, c2, c3, c4] := by
      show (s.data.filter filenameChar) = _
      rw [hs, List.filter_append]
      congr 1
      simp [List.filter_cons, hf1, hf2, hf3, hf4]
    rw [hsf, List.map_append]
    have htail : List.map Char.toLower [c1, c2, c3, c4] = (".zip").data := by
      simp [hc1, hc2, hc3, hc4]
    rw [htail]
    exact List.suffix_append _ _

/-! ### Symbolic evaluation of the upload handler on a complete bundle -/

lemma upload_success (fs0 : FS) (store0 : List (String × TransferRecord))
    (crsParses : String → Bool) (fname base host t src : String) (g : GeoData)
    (hwf : fs0.wf = true) (hne : fname ≠ "")
    (hfz : pyEndsWith (pyLower fname) ".zip" = true)
    (ht : t ≠ "") (hcrs : crsParses t = true) (hsrc : g.crs = some src)
    (hb : (base.data.all (fun c => c = '.')) = false) :
    reproject_api concreteBackend crsParses ⟨fs0, store0⟩
      ⟨some ⟨fname, .zip (bundleEntries base g)⟩, some t, host⟩ =
      ((.ok "Shapefile re-projected successfully"
          (host ++ "download_file/" ++ ("reprojected_" ++ stripColons t ++ ".zip")), 200),
       ⟨⟨fs0.files
           ++ [(Path.sub (.scratch fs0.next) (secure_filename fname),
                .zip (bundleEntries base g))]
           ++ (bundleEntries base g).map
                (fun e => (Path.sub (.scratch (fs0.next + 1)) e.1, e.2))
           ++ (bundleEntries base ⟨some t, g.features⟩).map
                (fun e => (Path.sub (Path.sub (.scratch (fs0.next + 1)) "reprojected") e.1, e.2))
           ++ [(Path.sub (.scratch (fs0.next + 2)) ("reprojected_" ++ stripColons t ++ ".zip"),
                .zip (bundleEntries base ⟨some t, g.features⟩))],
         .scratch (fs0.next + 2) :: Path.sub (.scratch (fs0.next + 1)) "reprojected"
           :: .scratch (fs0.next + 1) :: .scratch fs0.next :: fs0.dirs,
         fs0.next + 3⟩,
        storeInsert store0 ("reprojected_" ++ stripColons t ++ ".zip")
          ⟨Path.sub (.scratch (fs0.next + 2)) ("reprojected_" ++ stripColons t ++ ".zip"),
           [.scratch fs0.next, .scratch (fs0.next + 1), .scratch (fs0.next + 2)]⟩⟩) := by
  rw [reproject_api]
  have hcond1 : (decide (fname = "") || !(pyEndsWith (pyLower fname) ".zip")) = false := by
    rw [hfz]
    simp [hne]
  dsimp only
  rw [hcond1]
  simp only [Bool.false_eq_true, if_false]
  have hcond2 : decide (t = "") = false := by simp [ht]
  rw [if_neg ht]
  simp only [hcrs, Bool.not_true, Bool.false_eq_true, if_false]
  dsimp only [FS.mkdtemp, FS.addFile]
  have hwf2 : FS.wf ⟨fs0.files
      ++ [((Path.scratch fs0.next).sub (secure_filename fname),
           File.zip (bundleEntries base g))],
      Path.scratch fs0.next :: fs0.dirs, fs0.next + 1⟩ = true := by
    rw [FS.wf, Bool.and_eq_true, List.all_eq_true, List.all_eq_true]
    constructor
    · intro e he
      rw [List.mem_append] at he
      rcases he with he | he
      · exact rootFresh_mono (wf_files hwf e he) (Nat.le_succ _)
      · rw [List.mem_singleton] at he
        rw [he]
        show Path.rootFresh (Path.sub (Path.scratch fs0.next) _) (fs0.next + 1) = true
        rw [Path.rootFresh]
        simp [Path.root]
    · intro d hd
      rw [List.mem_cons] at hd
      rcases hd with hd | hd
      · rw [hd]
        rw [Path.rootFresh]
        simp [Path.root]
      · exact rootFresh_mono (wf_dirs hwf d hd) (Nat.le_succ _)
  have hz2 : pyEndsWith
      (pyLower ((Path.sub (Path.scratch fs0.next) (secure_filename fname)).toStr)) ".zip"
      = true := by
    show pyEndsWith (pyLower ((Path.scratch fs0.next).toStr ++ "/" ++ secure_filename fname))
      ".zip" = true
    rw [pyLower_append]
    exact pyEndsWith_append_of _ (secure_filename_zip hfz)
  have hfind2 : FS.findFile ⟨fs0.files
      ++ [((Path.scratch fs0.next).sub (secure_filename fname),
           File.zip (bundleEntries base g))],
      Path.scratch fs0.next :: fs0.dirs, fs0.next + 1⟩
      (Path.sub (Path.scratch fs0.next) (secure_filename fname))
      = some (.zip (bundleEntries base g)) := by
    rw [FS.findFile]
    show (List.find? _ (_ ++ _)).map _ = _
    rw [find?_path_append (fun e he =>
      ne_of_rootFresh (wf_files hwf e he)
        (show (Path.sub (Path.scratch fs0.next) (secure_filename fname)).root
            = Path.scratch fs0.next from rfl) (le_refl _))]
    simp
  rw [reproject_bundle _ _ base g src t hwf2 hz2 hfind2 hsrc hb]
  dsimp only [Path.basename]

/-! ### Cleanup and inversion lemmas for the validator -/

lemma rmtree_restore {files : List (Path × File)} {dirs : List Path} {n : Nat}
    (entries : List (String × File))
    (hf : ∀ e ∈ files, Path.rootFresh e.1 n = true)
    (hd : ∀ d ∈ dirs, Path.rootFresh d n = true) :
    FS.rmtree ⟨files ++ entries.map (fun e => (Path.sub (.scratch n) e.1, e.2)),
       .scratch n :: dirs, n + 1⟩ (.scratch n) = ⟨files, dirs, n + 1⟩ := by
  rw [FS.rmtree]
  have h1 : List.filter (fun e => !(Path.inDir e.1 (.scratch n)))
      (files ++ entries.map (fun e => (Path.sub (.scratch n) e.1, e.2))) = files := by
    rw [List.filter_append]
    have ha : List.filter (fun e => !(Path.inDir e.1 (.scratch n))) files = files := by
      rw [List.filter_eq_self]
      intro e he
      rw [not_inDir_of_rootFresh (hf e he) (root_scratch n) (le_refl n)]
      rfl
    have hb : List.filter (fun e => !(Path.inDir e.1 (.scratch n)))
        (entries.map (fun e => (Path.sub (.scratch n) e.1, e.2))) = [] := by
      rw [List.filter_eq_nil_iff]
      intro e he
      rw [List.mem_map] at he
      obtain ⟨a, -, rfl⟩ := he
      rw [sub_inDir]
      simp
    rw [ha, hb, List.append_nil]
  have h2 : List.filter (fun x => !(Path.inDir x (.scratch n))) (Path.scratch n :: dirs)
      = dirs := by
    rw [List.filter_cons]
    rw [inDir_self]
    simp only [Bool.not_true, Bool.false_eq_true, if_false]
    rw [List.filter_eq_self]
    intro d hdd
    rw [not_inDir_of_rootFresh (hd d hdd) (root_scratch n) (le_refl n)]
    rfl
  rw [h1, h2]

lemma rmtree_restore_nil {files : List (Path × File)} {dirs : List Path} {n : Nat}
    (hf : ∀ e ∈ files, Path.rootFresh e.1 n = true)
    (hd : ∀ d ∈ dirs, Path.rootFresh d n = true) :
    FS.rmtree ⟨files, .scratch n :: dirs, n + 1⟩ (.scratch n) = ⟨files, dirs, n + 1⟩ := by
  have h := @rmtree_restore files dirs n [] hf hd
  simpa using h

lemma check_error_inv (fs : FS) (zp : Path) (e : PyError) (fs1 : FS)
    (hwf : fs.wf = true)
    (h : check_shapefile_completeness fs zp = (.error e, fs1)) :
    fs1.files = fs.files ∧ fs1.dirs = fs.dirs := by
  rw [check_shapefile_completeness] at h
  split at h
  · rw [Prod.mk.injEq] at h
    rw [← h.2]
    exact ⟨rfl, rfl⟩
  · split at h
    · rw [Prod.mk.injEq] at h
      rw [← h.2]
      exact ⟨rfl, rfl⟩
    · rw [FS.mkdtemp] at h
      dsimp only at h
      split at h
      · next entries heq =>
        split at h
        · rw [Prod.mk.injEq] at h
          rw [← h.2]
          rw [show FS.extractall ⟨fs.files, .scratch fs.next :: fs.dirs, fs.next + 1⟩
                (Path.scratch fs.next) entries
              = ⟨fs.files ++ entries.map (fun e => (Path.sub (.scratch fs.next) e.1, e.2)),
                 .scratch fs.next :: fs.dirs, fs.next + 1⟩ from rfl]
          rw [rmtree_restore entries (wf_files hwf) (wf_dirs hwf)]
          exact ⟨rfl, rfl⟩
        · next shpName tail heq2 =>
          split at h
          · exact absurd h (by simp)
          · rw [Prod.mk.injEq] at h
            rw [← h.2]
            rw [show FS.extractall ⟨fs.files, .scratch fs.next :: fs.dirs, fs.next + 1⟩
                  (Path.scratch fs.next) entries
                = ⟨fs.files ++ entries.map (fun e => (Path.sub (.scratch fs.next) e.1, e.2)),
                   .scratch fs.next :: fs.dirs, fs.next + 1⟩ from rfl]
            rw [rmtree_restore entries (wf_files hwf) (wf_dirs hwf)]
            exact ⟨rfl, rfl⟩
      · rw [Prod.mk.injEq] at h
        rw [← h.2]
        rw [rmtree_restore_nil (wf_files hwf) (wf_dirs hwf)]
        exact ⟨rfl, rfl⟩



lemma check_ok_inv (fs : FS) (zp : Path) (shp d : Path) (fs1 : FS)
    (h : check_shapefile_completeness fs zp = (.ok (shp, d), fs1)) :
    d = .scratch fs.next ∧ fs1.next = fs.next + 1 ∧
    fs1.dirs = .scratch fs.next :: fs.dirs ∧
    (∃ entries, fs.findFile zp = some (.zip entries) ∧
       fs1.files = fs.files ++ entries.map (fun e => (Path.sub d e.1, e.2))) ∧
    ∃ name, shp = Path.sub d name := by
  rw [check_shapefile_completeness] at h
  split at h
  · exact absurd h (by simp)
  · split at h
    · exact absurd h (by simp)
    · rw [FS.mkdtemp] at h
      dsimp only at h
      split at h
      · next entries heq =>
        split at h
        · exact absurd h (by simp)
        · next shpName tail heq2 =>
          split at h
          · rw [Prod.mk.injEq] at h
            obtain ⟨hok, hfs⟩ := h
            rw [Except.ok.injEq, Prod.mk.injEq] at hok
            obtain ⟨hshp, hd⟩ := hok
            refine ⟨hd.symm, ?_, ?_, ⟨entries, heq, ?_⟩, ⟨shpName, ?_⟩⟩
            · rw [← hfs]; rfl
            · rw [← hfs]; rfl
            · rw [← hfs, ← hd]; rfl
            · rw [← hd, ← hshp]
          · exact absurd h (by simp)
      · exact absurd h (by simp)


lemma storeLookup_erase (store : List (String × TransferRecord)) (k : String) :
    storeLookup (storeErase store k) k = none := by
  rw [storeLookup, storeErase]
  have h : List.find? (fun e => decide (e.1 = k))
      (store.filter (fun e => !(decide (e.1 = k)))) = none := by
    rw [List.find?_eq_none]
    intro x hx
    rw [List.mem_filter] at hx
    simpa using hx.2
  rw [h]
  rfl

lemma storeLookup_insert (store : List (String × TransferRecord)) (k : String)
    (v : TransferRecord) : storeLookup (storeInsert store k v) k = some v := by
  rw [storeLookup, storeInsert, List.find?_cons]
  simp

/-- C2: an unparsable target CRS is rejected with HTTP 400, naming the
offending value and an example, and the server state is unchanged: no
scratch directory has been created and no file saved or extracted when the
CRS parse check fails. -/
theorem C2_invalid_crs_rejected_before_any_extraction (B : GeoBackend)
    (crsParses : String → Bool) (st : ServerState) (req : UploadRequest)
    (file : UploadedFile) (t : String)
    (hfile : req.file = some file) (hne : file.filename ≠ "")
    (hzip : pyEndsWith (pyLower file.filename) ".zip" = true)
    (ht : req.target_crs = some t) (htne : t ≠ "")
    (hbad : crsParses t = false) :
    reproject_api B crsParses st req =
      ((.err ("Invalid target CRS: '" ++ t ++ "'. Example: EPSG:4326"), 400), st) := by
  rw [reproject_api, hfile]
  dsimp only
  have hcond1 : (decide (file.filename = "")
      || !(pyEndsWith (pyLower file.filename) ".zip")) = false := by
    rw [hzip]
    simp [hne]
  rw [hcond1]
  simp only [Bool.false_eq_true, if_false]
  rw [ht]
  dsimp only
  rw [if_neg htne, hbad]
  rfl

/-- C2 witness: a concrete unparsable CRS request. -/
theorem C2_witness :
    reproject_api concreteBackend (fun s => decide (s = "EPSG:4326"))
      ⟨⟨[], [], 0⟩, []⟩ ⟨some ⟨"data.zip", .plain⟩, some "banana", "http://h/"⟩ =
      ((.err ("Invalid target CRS: '" ++ "banana" ++ "'. Example: EPSG:4326"), 400),
       ⟨⟨[], [], 0⟩, []⟩) :=
  C2_invalid_crs_rejected_before_any_extraction concreteBackend _ _ _ _ _
    rfl (by decide) (by decide) rfl (by decide) (by decide)

/-- C8: the upload handler's input checks run in order — missing file part,
then empty or non-zip filename, then missing (or empty) target CRS field,
then unparsable target CRS — each failing with HTTP 400 and a JSON error
body while leaving the state untouched, and each check is reached only when
all earlier ones pass (the earlier failures fire whatever the later fields
hold). -/
theorem C8_validation_order (B : GeoBackend) (crsParses : String → Bool)
    (st : ServerState) (req : UploadRequest) :
    (req.file = none →
      reproject_api B crsParses st req = ((.err "No file part in the request", 400), st)) ∧
    (∀ file, req.file = some file →
      (file.filename = "" ∨ pyEndsWith (pyLower file.filename) ".zip" = false) →
      reproject_api B crsParses st req =
        ((.err "No selected file or invalid file type. Please upload a .zip file.", 400), st)) ∧
    (∀ file, req.file = some file → file.filename ≠ "" →
      pyEndsWith (pyLower file.filename) ".zip" = true →
      (req.target_crs = none ∨ req.target_crs = some "") →
      reproject_api B crsParses st req =
        ((.err "Missing 'target_crs' parameter", 400), st)) ∧
    (∀ file t, req.file = some file → file.filename ≠ "" →
      pyEndsWith (pyLower file.filename) ".zip" = true →
      req.target_crs = some t → t ≠ "" → crsParses t = false →
      reproject_api B crsParses st req =
        ((.err ("Invalid target CRS: '" ++ t ++ "'. Example: EPSG:4326"), 400), st)) := by
  refine ⟨?_, ?_, ?_, ?_⟩
  · intro h
    rw [reproject_api, h]
  · intro file hfile hbadname
    rw [reproject_api, hfile]
    dsimp only
    have hcond : (decide (file.filename = "")
        || !(pyEndsWith (pyLower file.filename) ".zip")) = true := by
      rcases hbadname with h | h
      · rw [h]; simp
      · rw [h]; simp
    rw [hcond]
    rfl
  · intro file hfile hne hzip htcrs
    rw [reproject_api, hfile]
    dsimp only
    have hcond : (decide (file.filename = "")
        || !(pyEndsWith (pyLower file.filename) ".zip")) = false := by
      rw [hzip]; simp [hne]
    rw [hcond]
    simp only [Bool.false_eq_true, if_false]
    rcases htcrs with h | h
    · rw [h]
    · rw [h]
      dsimp only
      rw [if_pos rfl]
  · intro file t hfile hne hzip ht htne hbad
    exact C2_invalid_crs_rejected_before_any_extraction B crsParses st req file t
      hfile hne hzip ht htne hbad


/-- C8 witness: the four ordered failures at concrete requests. -/
theorem C8_witness :
    (reproject_api concreteBackend (fun _ => true) ⟨⟨[], [], 0⟩, []⟩
       ⟨none, some "EPSG:4326", "h"⟩
       = ((.err "No file part in the request", 400), ⟨⟨[], [], 0⟩, []⟩)) ∧
    (reproject_api concreteBackend (fun _ => true) ⟨⟨[], [], 0⟩, []⟩
       ⟨some ⟨"data.txt", .plain⟩, none, "h"⟩
       = ((.err "No selected file or invalid file type. Please upload a .zip file.", 400),
          ⟨⟨[], [], 0⟩, []⟩)) ∧
    (reproject_api concreteBackend (fun _ => true) ⟨⟨[], [], 0⟩, []⟩
       ⟨some ⟨"data.zip", .plain⟩, none, "h"⟩
       = ((.err "Missing 'target_crs' parameter", 400), ⟨⟨[], [], 0⟩, []⟩)) ∧
    (reproject_api concreteBackend (fun _ => false) ⟨⟨[], [], 0⟩, []⟩
       ⟨some ⟨"data.zip", .plain⟩, some "EPSG:4326", "h"⟩
       = ((.err ("Invalid target CRS: '" ++ "EPSG:4326" ++ "'. Example: EPSG:4326"), 400),
          ⟨⟨[], [], 0⟩, []⟩)) :=
  ⟨(C8_validation_order concreteBackend (fun _ => true) ⟨⟨[], [], 0⟩, []⟩
      ⟨none, some "EPSG:4326", "h"⟩).1 rfl,
   (C8_validation_order concreteBackend (fun _ => true) ⟨⟨[], [], 0⟩, []⟩
      ⟨some ⟨"data.txt", .plain⟩, none, "h"⟩).2.1 _ rfl (Or.inr (by decide)),
   (C8_validation_order concreteBackend (fun _ => true) ⟨⟨[], [], 0⟩, []⟩
      ⟨some ⟨"data.zip", .plain⟩, none, "h"⟩).2.2.1 _ rfl (by decide) (by decide)
      (Or.inl rfl),
   (C8_validation_order concreteBackend (fun _ => false) ⟨⟨[], [], 0⟩, []⟩
      ⟨some ⟨"data.zip", .plain⟩, some "EPSG:4326", "h"⟩).2.2.2 _ _ rfl (by decide)
      (by decide) rfl (by decide) rfl⟩

lemma find?_sub_map_isSome (td : Path) (y : String) (sc : List (String × File)) :
    (List.find? (fun e => decide (e.1 = Path.sub td y))
      (sc.map (fun e => (Path.sub td e.1, e.2)))).isSome
    = (sc.map Prod.fst).any (fun n => decide (n = y)) := by
  induction sc with
  | nil => rfl
  | cons a sc ih =>
    by_cases h : a.1 = y
    · simp [List.find?_cons, List.any_cons, h]
    · rw [List.map_cons, List.find?_cons, List.map_cons, List.any_cons]
      dsimp only
      have h1 : decide (Path.sub td a.1 = Path.sub td y) = false := by
        simp [Path.sub.injEq, h]
      rw [h1]
      dsimp only
      have h2 : decide (a.1 = y) = false := by simp [h]
      rw [h2, Bool.false_or]
      exact ih

/-- The extensions among {.shx, .dbf, .prj} whose sidecar file is absent
from an archive's entry list (the spec's "every missing extension"). -/
def missingSidecars (base : String) (sc : List (String × File)) : List String :=
  [".shx", ".dbf", ".prj"].filter (fun e => !((sc.map Prod.fst).any (fun n => decide (n = base ++ e))))

/-- C3: an archive whose first entry is a `.shp` and whose other entries are
sidecars of the same base name fails validation, when any mandatory sidecar
is absent, with a message that enumerates every missing extension (in the
fixed .shx, .dbf, .prj order), not only the first one. -/
theorem C3_missing_sidecars_all_enumerated (fs : FS) (zp : Path) (base : String)
    (g : GeoData) (sc : List (String × File))
    (hwf : fs.wf = true)
    (hz : pyEndsWith (pyLower zp.toStr) ".zip" = true)
    (hfind : fs.findFile zp = some (.zip ((base ++ ".shp", .geo g) :: sc)))
    (hsc : ∀ p ∈ sc, p.1 = base ++ ".shx" ∨ p.1 = base ++ ".dbf" ∨ p.1 = base ++ ".prj")
    (hmiss : missingSidecars base sc ≠ [])
    (hb : flatStem base = true) :
    (check_shapefile_completeness fs zp).1 = .error (.fileNotFoundError
      ("Incomplete shapefile. Missing: "
        ++ String.intercalate ", " (missingSidecars base sc))) := by
  have hzf : fs.is_zipfile zp = true := by rw [FS.is_zipfile, hfind]
  rw [check_shapefile_completeness, hz, hzf]
  simp only [Bool.not_true, if_false, FS.mkdtemp, Bool.false_eq_true]
  have hfind2 : FS.findFile ⟨fs.files, Path.scratch fs.next :: fs.dirs, fs.next + 1⟩ zp
      = some (.zip ((base ++ ".shp", .geo g) :: sc)) := hfind
  rw [hfind2]
  dsimp only
  have hfresh : ∀ e ∈ fs.files, childName (Path.scratch fs.next) e.1 = none := by
    intro e he
    exact childName_none_of_rootFresh (wf_files hwf e he) (root_scratch fs.next) (le_refl _)
  have hfreshd : ∀ d ∈ fs.dirs, childName (Path.scratch fs.next) d = none := by
    intro d hd
    exact childName_none_of_rootFresh (wf_dirs hwf d hd) (root_scratch fs.next) (le_refl _)
  have hlist : FS.listdir
      (FS.extractall ⟨fs.files, Path.scratch fs.next :: fs.dirs, fs.next + 1⟩
        (Path.scratch fs.next) ((base ++ ".shp", .geo g) :: sc)) (Path.scratch fs.next)
      = (base ++ ".shp") :: sc.map Prod.fst := by
    rw [FS.listdir, FS.extractall]
    show List.filterMap _ (_ ++ _) ++ _ = _
    rw [filterMap_child_append hfresh]
    have h2 : List.filterMap (childName (Path.scratch fs.next))
        (Path.scratch fs.next :: fs.dirs) = [] := by
      rw [List.filterMap_cons]
      have hcn : childName (Path.scratch fs.next) (Path.scratch fs.next) = none := rfl
      rw [hcn, filterMap_child_nil hfreshd]
    rw [h2, List.append_nil]
    rw [List.filterMap_map]
    have hcomp : ((fun e => childName (Path.scratch fs.next) e.1)
        ∘ fun (e : String × File) => (Path.sub (.scratch fs.next) e.1, e.2))
        = fun (e : String × File) => some e.1 :=
      funext (fun e => childName_sub _ _)
    rw [hcomp]
    have hfm : ∀ l : List (String × File),
        List.filterMap (fun (e : String × File) => some e.1) l = l.map Prod.fst := by
      intro l
      induction l with
      | nil => rfl
      | cons a l ih => rw [List.filterMap_cons, List.map_cons, ih]
    rw [hfm]
    rfl
  rw [hlist]
  have hfilter : List.filter (fun f => pyEndsWith (pyLower f) ".shp")
      ((base ++ ".shp") :: sc.map Prod.fst) = (base ++ ".shp")
        :: List.filter (fun f => pyEndsWith (pyLower f) ".shp") (sc.map Prod.fst) := by
    rw [List.filter_cons, endsShp_shp]
    rfl
  have hfilter2 : List.filter (fun f => pyEndsWith (pyLower f) ".shp")
      (sc.map Prod.fst) = [] := by
    rw [List.filter_eq_nil_iff]
    intro n hn
    rw [List.mem_map] at hn
    obtain ⟨p, hp, rfl⟩ := hn
    rcases hsc p hp with h | h | h
    · rw [h, endsShx_not_shp]
      simp
    · rw [h, endsDbf_not_shp]
      simp
    · rw [h, endsPrj_not_shp]
      simp
  rw [hfilter, hfilter2]
  dsimp only
  rw [pySplitext_shp base (flatStem_not_dots hb)]
  dsimp only
  have holdne : ∀ (x : String), ∀ e ∈ fs.files,
      e.1 ≠ Path.sub (Path.scratch fs.next) x := by
    intro x e he
    exact ne_of_rootFresh (wf_files hwf e he)
      (show (Path.sub (Path.scratch fs.next) x).root = Path.scratch fs.next from rfl)
      (le_refl _)
  have hdex : ∀ (x : String), FS.dirExists
      (FS.extractall ⟨fs.files, Path.scratch fs.next :: fs.dirs, fs.next + 1⟩
        (Path.scratch fs.next) ((base ++ ".shp", .geo g) :: sc))
      (Path.sub (Path.scratch fs.next) x) = false := by
    intro x
    rw [FS.dirExists, FS.extractall]
    show ((Path.scratch fs.next :: fs.dirs).any fun d => decide (d = _)) = false
    rw [List.any_cons, any_path_eq_false (wf_dirs hwf)
      (show (Path.sub (Path.scratch fs.next) x).root = Path.scratch fs.next from rfl)
      (le_refl _)]
    simp
  have hshp_present : FS.pathExists
      (FS.extractall ⟨fs.files, Path.scratch fs.next :: fs.dirs, fs.next + 1⟩
        (Path.scratch fs.next) ((base ++ ".shp", .geo g) :: sc))
      (Path.sub (Path.scratch fs.next) (base ++ ".shp")) = true := by
    rw [FS.pathExists, Bool.or_eq_true]
    left
    rw [FS.isfile, FS.findFile, Option.isSome_map']
    rw [FS.extractall]
    show (List.find? _ (_ ++ _)).isSome = true
    rw [find?_path_append (holdne _), List.map_cons, List.find?_cons]
    simp
  have hpe : ∀ x : String, x = ".shx" ∨ x = ".dbf" ∨ x = ".prj" →
      FS.pathExists
        (FS.extractall ⟨fs.files, Path.scratch fs.next :: fs.dirs, fs.next + 1⟩
          (Path.scratch fs.next) ((base ++ ".shp", .geo g) :: sc))
        (Path.sub (Path.scratch fs.next) (base ++ x))
      = ((sc.map Prod.fst).any fun n => decide (n = base ++ x)) := by
    intro x hx
    rw [FS.pathExists, hdex, Bool.or_false]
    rw [FS.isfile, FS.findFile, Option.isSome_map']
    rw [FS.extractall]
    show (List.find? _ (_ ++ _)).isSome = _
    rw [find?_path_append (holdne _), List.map_cons, List.find?_cons]
    have k1 : base ++ ".shp" ≠ base ++ ".shx" := string_append_ne (by decide)
    have k2 : base ++ ".shp" ≠ base ++ ".dbf" := string_append_ne (by decide)
    have k3 : base ++ ".shp" ≠ base ++ ".prj" := string_append_ne (by decide)
    have hhead : decide ((Path.sub (Path.scratch fs.next) (base ++ ".shp"),
        File.geo g).1 = Path.sub (Path.scratch fs.next) (base ++ x)) = false := by
      rcases hx with h | h | h <;> rw [h] <;> simp [Path.sub.injEq, k1, k2, k3]
    rw [hhead]
    exact find?_sub_map_isSome _ _ _
  have hmisseq : List.filter (fun e => !(FS.pathExists
      (FS.extractall ⟨fs.files, Path.scratch fs.next :: fs.dirs, fs.next + 1⟩
        (Path.scratch fs.next) ((base ++ ".shp", .geo g) :: sc))
      (Path.sub (Path.scratch fs.next) (base ++ e)))) required_exts
      = missingSidecars base sc := by
    rw [required_exts, missingSidecars]
    rw [List.filter_cons, hshp_present]
    simp only [Bool.not_true, Bool.false_eq_true, if_false]
    refine List.filter_congr ?_
    intro x hx
    have hx3 : x = ".shx" ∨ x = ".dbf" ∨ x = ".prj" := by
      simpa using hx
    rw [hpe x hx3]
  rw [hmisseq]
  have hni : (missingSidecars base sc).isEmpty = false := by
    rcases hni2 : missingSidecars base sc with _ | ⟨a, l⟩
    · exact absurd hni2 hmiss
    · rfl
  rw [hni]
  rfl


lemma rmtree_dirExists_self (fs : FS) (d : Path) : (fs.rmtree d).dirExists d = false := by
  rw [FS.rmtree, FS.dirExists]
  rw [Bool.eq_false_iff]
  intro hc
  rw [List.any_eq_true] at hc
  obtain ⟨x, hx, hxd⟩ := hc
  rw [decide_eq_true_eq] at hxd
  rw [List.mem_filter] at hx
  rw [hxd, inDir_self] at hx
  simp at hx

lemma rmtree_all_not_inDir (fs : FS) (d : Path) :
    ((fs.rmtree d).files.all fun f => !(f.1.inDir d)) = true := by
  rw [FS.rmtree, List.all_eq_true]
  intro x hx
  rw [List.mem_filter] at hx
  exact hx.2

/-- C6: when validation fails after its scratch directory exists, the
scratch directory and everything extracted into it are deleted before the
error propagates — the file system's files and directories are exactly as
before the call; on success the fresh scratch directory is returned with
every extracted file left inside it. -/
theorem C6_validator_cleanup_on_failure (fs : FS) (zp : Path) (hwf : fs.wf = true) :
    (∀ e fs1, check_shapefile_completeness fs zp = (.error e, fs1) →
       fs1.files = fs.files ∧ fs1.dirs = fs.dirs) ∧
    (∀ shp d fs1, check_shapefile_completeness fs zp = (.ok (shp, d), fs1) →
       d = .scratch fs.next ∧ fs1.dirs = .scratch fs.next :: fs.dirs ∧
       ∃ entries, fs.findFile zp = some (.zip entries) ∧
         fs1.files = fs.files ++ entries.map (fun e => (Path.sub d e.1, e.2))) := by
  constructor
  · intro e fs1 h
    exact check_error_inv fs zp e fs1 hwf h
  · intro shp d fs1 h
    obtain ⟨hd, -, hdirs, hent, -⟩ := check_ok_inv fs zp shp d fs1 h
    exact ⟨hd, hdirs, hent⟩

/-- C6 witness: a zip with no .shp fails and restores the file system; a
complete bundle succeeds and leaves the extracted files in the returned
scratch directory. -/
theorem C6_witness :
    ((check_shapefile_completeness
        ⟨[(Path.given "in.zip", .zip [("a.dbf", File.plain)])], [], 0⟩
        (Path.given "in.zip")).2.files
      = [(Path.given "in.zip", .zip [("a.dbf", File.plain)])] ∧
     (check_shapefile_completeness
        ⟨[(Path.given "in.zip", .zip [("a.dbf", File.plain)])], [], 0⟩
        (Path.given "in.zip")).2.dirs = []) ∧
    ((check_shapefile_completeness
        ⟨[(Path.given "b.zip", .zip (bundleEntries "a" ⟨some "EPSG:4326", 0⟩))], [], 0⟩
        (Path.given "b.zip")).2.dirs = [Path.scratch 0]) := by
  constructor
  · have h := (C6_validator_cleanup_on_failure
      ⟨[(Path.given "in.zip", .zip [("a.dbf", File.plain)])], [], 0⟩
      (Path.given "in.zip") (by decide)).1
      (.fileNotFoundError "No .shp file found in the zipped folder.")
      ((check_shapefile_completeness
        ⟨[(Path.given "in.zip", .zip [("a.dbf", File.plain)])], [], 0⟩
        (Path.given "in.zip")).2) (by rfl)
    exact h
  · have h := (C6_validator_cleanup_on_failure
      ⟨[(Path.given "b.zip", .zip (bundleEntries "a" ⟨some "EPSG:4326", 0⟩))], [], 0⟩
      (Path.given "b.zip") (by decide)).2
      (Path.sub (.scratch 0) ("a" ++ ".shp")) (.scratch 0)
      ((check_shapefile_completeness
        ⟨[(Path.given "b.zip", .zip (bundleEntries "a" ⟨some "EPSG:4326", 0⟩))], [], 0⟩
        (Path.given "b.zip")).2) (by rfl)
    rw [h.2.1]

/-- C5: if any step of the reprojection engine fails after validation
succeeded, the input scratch directory and everything extracted into it are
deleted before the error propagates: in the resulting file system the
directory is gone and no file lies under it.  Holds for every behaviour of
the external geospatial engine, in particular for the MissingSourceCRS
refusal. -/
theorem C5_engine_failure_deletes_input_scratch (B : GeoBackend) (fs : FS) (zp : Path)
    (t : String) (shp d : Path) (fs1 fs2 : FS) (e : PyError)
    (h1 : check_shapefile_completeness fs zp = (.ok (shp, d), fs1))
    (h2 : reproject_shapefile B fs zp t = (.error e, fs2)) :
    fs2.dirExists d = false ∧ (fs2.files.all fun f => !(f.1.inDir d)) = true := by
  have hdex : fs1.dirExists d = true := by
    obtain ⟨hd, -, hdirs, -, -⟩ := check_ok_inv fs zp shp d fs1 h1
    rw [FS.dirExists, hdirs, List.any_cons, hd]
    simp
  rw [reproject_shapefile, h1] at h2
  dsimp only at h2
  rw [hdex] at h2
  simp only [if_true] at h2
  split at h2
  · rw [Prod.mk.injEq] at h2
    rw [← h2.2]
    exact ⟨rmtree_dirExists_self _ _, rmtree_all_not_inDir _ _⟩
  · next gdf =>
    split at h2
    · rw [Prod.mk.injEq] at h2
      rw [← h2.2]
      exact ⟨rmtree_dirExists_self _ _, rmtree_all_not_inDir _ _⟩
    · split at h2
      · rw [Prod.mk.injEq] at h2
        rw [← h2.2]
        exact ⟨rmtree_dirExists_self _ _, rmtree_all_not_inDir _ _⟩
      · exact absurd h2 (by simp)


/-- C5 witness: a bundle with no CRS metadata is refused after validation
and the input scratch directory with all extracted files is deleted. -/
theorem C5_witness :
    ((reproject_shapefile concreteBackend
        ⟨[(Path.given "in.zip", .zip (bundleEntries "a" ⟨none, 0⟩))], [], 0⟩
        (Path.given "in.zip") "EPSG:3857").2.dirExists (.scratch 0) = false) ∧
    (((reproject_shapefile concreteBackend
        ⟨[(Path.given "in.zip", .zip (bundleEntries "a" ⟨none, 0⟩))], [], 0⟩
        (Path.given "in.zip") "EPSG:3857").2.files.all
       fun f => !(f.1.inDir (.scratch 0))) = true) :=
  C5_engine_failure_deletes_input_scratch concreteBackend
    ⟨[(Path.given "in.zip", .zip (bundleEntries "a" ⟨none, 0⟩))], [], 0⟩
    (Path.given "in.zip") "EPSG:3857"
    (Path.sub (.scratch 0) ("a" ++ ".shp")) (.scratch 0)
    (check_shapefile_completeness
      ⟨[(Path.given "in.zip", .zip (bundleEntries "a" ⟨none, 0⟩))], [], 0⟩
      (Path.given "in.zip")).2
    (reproject_shapefile concreteBackend
      ⟨[(Path.given "in.zip", .zip (bundleEntries "a" ⟨none, 0⟩))], [], 0⟩
      (Path.given "in.zip") "EPSG:3857").2
    (.valueError "No CRS information found in shapefile.") (by rfl) (by rfl)

lemma extract_makedirs_next (f : FS) (dd : Path) (w : List (String × File)) :
    ((f.makedirs dd).extractall dd w).next = f.next := by
  rw [FS.makedirs]
  split <;> rfl

lemma mkdtemp_fst_of_workdir (f : FS) (dd : Path) (w : List (String × File)) :
    ((f.makedirs dd).extractall dd w).mkdtemp.1 = .scratch f.next := by
  rw [FS.mkdtemp, extract_makedirs_next]

lemma dirExists_addFile_scratch (m : FS) (p : Path) (ff : File) :
    ((m.mkdtemp.2.addFile p ff).dirExists (.scratch m.next)) = true := by
  rw [FS.mkdtemp, FS.addFile, FS.dirExists]
  dsimp only
  rw [List.any_cons]
  simp

lemma dirExists_addFile_scratch2 (m : FS) (p : Path) (ff : File) (n : Nat)
    (hm : m.next = n) : ((m.mkdtemp.2.addFile p ff).dirExists (.scratch n)) = true := by
  rw [← hm]
  exact dirExists_addFile_scratch m p ff

/-- C7: a successful reprojection returns an output archive whose location
is the fresh second scratch directory and whose name is determined solely by
the target CRS — "reprojected_" ++ the target with colons removed ++ ".zip";
the second scratch directory is distinct from the input scratch directory
and did not exist before the call. -/
theorem C7_output_zip_name_from_target_crs (B : GeoBackend) (fs : FS) (zp : Path)
    (t : String) (out din dout : Path) (fs' : FS)
    (hwf : fs.wf = true)
    (h : reproject_shapefile B fs zp t = (.ok (out, din, dout), fs')) :
    out = Path.sub dout ("reprojected_" ++ stripColons t ++ ".zip") ∧
    din = .scratch fs.next ∧ dout = .scratch (fs.next + 1) ∧ dout ≠ din ∧
    fs.dirExists dout = false ∧ fs'.dirExists dout = true := by
  rw [reproject_shapefile] at h
  rcases hc : check_shapefile_completeness fs zp with ⟨res, fs1⟩
  rw [hc] at h
  rcases res with e | ⟨shp, d⟩
  · exact absurd h (by simp)
  · obtain ⟨hd, hnext, hdirs, -, -⟩ := check_ok_inv fs zp shp d fs1 hc
    dsimp only at h
    split at h
    · exact absurd h (by simp)
    · next gdf =>
      split at h
      · exact absurd h (by simp)
      · split at h
        · exact absurd h (by simp)
        · next gdf2 =>
          rw [Prod.mk.injEq, Except.ok.injEq, Prod.mk.injEq] at h
          obtain ⟨⟨h1, h23⟩, hfs⟩ := h
          rw [Prod.mk.injEq] at h23
          obtain ⟨h2, h3⟩ := h23
          rw [mkdtemp_fst_of_workdir, hnext] at h3
          rw [mkdtemp_fst_of_workdir, hnext] at h1
          have hdin : din = Path.scratch fs.next := by rw [← h2, hd]
          have hdout : dout = Path.scratch (fs.next + 1) := h3.symm
          refine ⟨?_, hdin, hdout, ?_, ?_, ?_⟩
          · rw [← h1, hdout]
          · rw [hdout, hdin]
            intro hcc
            rw [Path.scratch.injEq] at hcc
            omega
          · rw [hdout, FS.dirExists]
            exact any_path_eq_false (wf_dirs hwf) (root_scratch _) (Nat.le_succ _)
          · rw [← hfs, ← h3]
            exact dirExists_addFile_scratch2 _ _ _ _
              (by rw [extract_makedirs_next]; exact hnext)


/-- C7 witness: a concrete successful reprojection to EPSG:3857 produces
reprojected_EPSG3857.zip inside the fresh second scratch directory. -/
theorem C7_witness :
    (Path.sub (.scratch 1) "reprojected_EPSG3857.zip"
       = Path.sub (.scratch 1) ("reprojected_" ++ stripColons "EPSG:3857" ++ ".zip")) ∧
    (Path.scratch 0 : Path) = .scratch 0 ∧ (Path.scratch 1 : Path) = .scratch (0 + 1) ∧
    (Path.scratch 1 : Path) ≠ .scratch 0 ∧
    FS.dirExists ⟨[(Path.given "in.zip", .zip (bundleEntries "a" ⟨some "EPSG:4326", 0⟩))], [], 0⟩
      (.scratch 1) = false ∧
    (reproject_shapefile concreteBackend
      ⟨[(Path.given "in.zip", .zip (bundleEntries "a" ⟨some "EPSG:4326", 0⟩))], [], 0⟩
      (Path.given "in.zip") "EPSG:3857").2.dirExists (.scratch 1) = true :=
  C7_output_zip_name_from_target_crs concreteBackend
    ⟨[(Path.given "in.zip", .zip (bundleEntries "a" ⟨some "EPSG:4326", 0⟩))], [], 0⟩
    (Path.given "in.zip") "EPSG:3857"
    (Path.sub (.scratch 1) "reprojected_EPSG3857.zip") (.scratch 0) (.scratch 1)
    (reproject_shapefile concreteBackend
      ⟨[(Path.given "in.zip", .zip (bundleEntries "a" ⟨some "EPSG:4326", 0⟩))], [], 0⟩
      (Path.given "in.zip") "EPSG:3857").2
    (by decide) (by rfl)

/-- C1: for every upload of a zip holding one complete shapefile bundle
whose layer carries a source CRS, and every target CRS the parser accepts,
the handler answers HTTP 200 with the success message and a download link
built from the request host URL and the output file identifier, registers
the identifier, and the produced archive is a zip of exactly one shapefile
bundle (same base name) whose layer is in the target CRS. -/
theorem C1_happy_path_reprojects_bundle (fs0 : FS) (store0 : List (String × TransferRecord))
    (crsParses : String → Bool) (fname base host t src : String) (g : GeoData)
    (hwf : fs0.wf = true) (hne : fname ≠ "")
    (hfz : pyEndsWith (pyLower fname) ".zip" = true)
    (ht : t ≠ "") (hcrs : crsParses t = true) (hsrc : g.crs = some src)
    (hb : flatStem base = true) :
    (reproject_api concreteBackend crsParses ⟨fs0, store0⟩
       ⟨some ⟨fname, .zip (bundleEntries base g)⟩, some t, host⟩).1
      = ((.ok "Shapefile re-projected successfully"
           (host ++ "download_file/" ++ ("reprojected_" ++ stripColons t ++ ".zip"))), 200) ∧
    storeLookup (reproject_api concreteBackend crsParses ⟨fs0, store0⟩
        ⟨some ⟨fname, .zip (bundleEntries base g)⟩, some t, host⟩).2.store
        ("reprojected_" ++ stripColons t ++ ".zip")
      = some ⟨Path.sub (.scratch (fs0.next + 2)) ("reprojected_" ++ stripColons t ++ ".zip"),
          [.scratch fs0.next, .scratch (fs0.next + 1), .scratch (fs0.next + 2)]⟩ ∧
    (reproject_api concreteBackend crsParses ⟨fs0, store0⟩
        ⟨some ⟨fname, .zip (bundleEntries base g)⟩, some t, host⟩).2.fs.findFile
        (Path.sub (.scratch (fs0.next + 2)) ("reprojected_" ++ stripColons t ++ ".zip"))
      = some (.zip (bundleEntries base ⟨some t, g.features⟩)) := by
  rw [upload_success fs0 store0 crsParses fname base host t src g hwf hne hfz ht hcrs hsrc
    (flatStem_not_dots hb)]
  refine ⟨rfl, storeLookup_insert _ _ _, ?_⟩
  rw [FS.findFile]
  show (List.find? _ (_ ++ _)).map _ = _
  rw [List.find?_append]
  have hleft : List.find? (fun e => decide
      (e.1 = Path.sub (.scratch (fs0.next + 2)) ("reprojected_" ++ stripColons t ++ ".zip")))
      (fs0.files
        ++ [(Path.sub (.scratch fs0.next) (secure_filename fname),
             .zip (bundleEntries base g))]
        ++ (bundleEntries base g).map
             (fun e => (Path.sub (.scratch (fs0.next + 1)) e.1, e.2))
        ++ (bundleEntries base ⟨some t, g.features⟩).map
             (fun e => (Path.sub (Path.sub (.scratch (fs0.next + 1)) "reprojected") e.1, e.2)))
      = none := by
    rw [List.find?_eq_none]
    intro x hx
    simp only [decide_eq_true_eq]
    rw [List.mem_append] at hx
    rcases hx with hx | hx
    · rw [List.mem_append] at hx
      rcases hx with hx | hx
      · rw [List.mem_append] at hx
        rcases hx with hx | hx
        · exact ne_of_rootFresh (wf_files hwf x hx)
            (show (Path.sub (.scratch (fs0.next + 2)) _).root = Path.scratch (fs0.next + 2)
              from rfl) (by omega)
        · rw [List.mem_singleton] at hx
          rw [hx]
          intro hc
          rw [Path.sub.injEq] at hc
          have := hc.1
          rw [Path.scratch.injEq] at this
          omega
      · rw [List.mem_map] at hx
        obtain ⟨a, -, rfl⟩ := hx
        intro hc
        rw [Path.sub.injEq] at hc
        have := hc.1
        rw [Path.scratch.injEq] at this
        omega
    · rw [List.mem_map] at hx
      obtain ⟨a, -, rfl⟩ := hx
      intro hc
      rw [Path.sub.injEq] at hc
      have := hc.1
      cases this
  rw [hleft, Option.none_or]
  simp


/-- C1 witness: a concrete upload of parcels.* in EPSG:4326 reprojected to
EPSG:3857. -/
theorem C1_witness :
    ((reproject_api concreteBackend (fun s => decide (s = "EPSG:3857")) ⟨⟨[], [], 0⟩, []⟩
       ⟨some ⟨"data.zip", .zip (bundleEntries "parcels" ⟨some "EPSG:4326", 7⟩)⟩,
        some "EPSG:3857", "http://h/"⟩).1
      = ((.ok "Shapefile re-projected successfully"
           ("http://h/" ++ "download_file/" ++ ("reprojected_" ++ stripColons "EPSG:3857" ++ ".zip"))), 200)) ∧
    (storeLookup (reproject_api concreteBackend (fun s => decide (s = "EPSG:3857")) ⟨⟨[], [], 0⟩, []⟩
        ⟨some ⟨"data.zip", .zip (bundleEntries "parcels" ⟨some "EPSG:4326", 7⟩)⟩,
         some "EPSG:3857", "http://h/"⟩).2.store
        ("reprojected_" ++ stripColons "EPSG:3857" ++ ".zip")
      = some ⟨Path.sub (.scratch (0 + 2)) ("reprojected_" ++ stripColons "EPSG:3857" ++ ".zip"),
          [.scratch 0, .scratch (0 + 1), .scratch (0 + 2)]⟩) ∧
    ((reproject_api concreteBackend (fun s => decide (s = "EPSG:3857")) ⟨⟨[], [], 0⟩, []⟩
        ⟨some ⟨"data.zip", .zip (bundleEntries "parcels" ⟨some "EPSG:4326", 7⟩)⟩,
         some "EPSG:3857", "http://h/"⟩).2.fs.findFile
        (Path.sub (.scratch (0 + 2)) ("reprojected_" ++ stripColons "EPSG:3857" ++ ".zip"))
      = some (.zip (bundleEntries "parcels" ⟨some "EPSG:3857", 7⟩))) :=
  C1_happy_path_reprojects_bundle ⟨[], [], 0⟩ [] (fun s => decide (s = "EPSG:3857"))
    "data.zip" "parcels" "http://h/" "EPSG:3857" "EPSG:4326" ⟨some "EPSG:4326", 7⟩
    (by decide) (by decide) (by decide) (by decide) (by decide) rfl (by decide)

/-- The file system left by a successful upload run is still well formed. -/
lemma happy_fs_wf (fs0 : FS) (fname base t : String) (g : GeoData)
    (hwf : fs0.wf = true) :
    FS.wf ⟨fs0.files
        ++ [(Path.sub (.scratch fs0.next) (secure_filename fname),
             .zip (bundleEntries base g))]
        ++ (bundleEntries base g).map
             (fun e => (Path.sub (.scratch (fs0.next + 1)) e.1, e.2))
        ++ (bundleEntries base ⟨some t, g.features⟩).map
             (fun e => (Path.sub (Path.sub (.scratch (fs0.next + 1)) "reprojected") e.1, e.2))
        ++ [(Path.sub (.scratch (fs0.next + 2)) ("reprojected_" ++ stripColons t ++ ".zip"),
             .zip (bundleEntries base ⟨some t, g.features⟩))],
      .scratch (fs0.next + 2) :: Path.sub (.scratch (fs0.next + 1)) "reprojected"
        :: .scratch (fs0.next + 1) :: .scratch fs0.next :: fs0.dirs,
      fs0.next + 3⟩ = true := by
  rw [FS.wf, Bool.and_eq_true, List.all_eq_true, List.all_eq_true]
  constructor
  · intro e he
    rw [List.mem_append] at he
    rcases he with he | he
    · rw [List.mem_append] at he
      rcases he with he | he
      · rw [List.mem_append] at he
        rcases he with he | he
        · rw [List.mem_append] at he
          rcases he with he | he
          · exact rootFresh_mono (wf_files hwf e he) (Nat.le_add_right _ 3)
          · rw [List.mem_singleton] at he
            rw [he, Path.rootFresh]
            simp [Path.root]
        · rw [List.mem_map] at he
          obtain ⟨a, -, rfl⟩ := he
          rw [Path.rootFresh]
          simp [Path.root]
      · rw [List.mem_map] at he
        obtain ⟨a, -, rfl⟩ := he
        rw [Path.rootFresh]
        simp [Path.root]
    · rw [List.mem_singleton] at he
      rw [he, Path.rootFresh]
      simp [Path.root]
  · intro d hd
    rw [List.mem_cons] at hd
    rcases hd with hd | hd
    · rw [hd, Path.rootFresh]; simp [Path.root]
    · rw [List.mem_cons] at hd
      rcases hd with hd | hd
      · rw [hd, Path.rootFresh]; simp [Path.root]
      · rw [List.mem_cons] at hd
        rcases hd with hd | hd
        · rw [hd, Path.rootFresh]; simp [Path.root]
        · rw [List.mem_cons] at hd
          rcases hd with hd | hd
          · rw [hd, Path.rootFresh]; simp [Path.root]
          · exact rootFresh_mono (wf_dirs hwf d hd) (Nat.le_add_right _ 3)


/-- C9 (implicit): the output identifier is a function of the target CRS
alone — two successful uploads with the same target CRS, whatever their
archives, file names or hosts, yield the same identifier; the second
registration silently replaces the first in the transfer registry, leaving
the first record's three scratch directories on disk but referenced by no
registry entry. -/
theorem C9_same_target_id_collision (fs0 : FS) (crsParses : String → Bool)
    (fname1 base1 src1 fname2 base2 src2 host1 host2 t : String) (g1 g2 : GeoData)
    (hwf : fs0.wf = true)
    (hne1 : fname1 ≠ "") (hfz1 : pyEndsWith (pyLower fname1) ".zip" = true)
    (hne2 : fname2 ≠ "") (hfz2 : pyEndsWith (pyLower fname2) ".zip" = true)
    (ht : t ≠ "") (hcrs : crsParses t = true)
    (hsrc1 : g1.crs = some src1) (hsrc2 : g2.crs = some src2)
    (hb1 : flatStem base1 = true) (hb2 : flatStem base2 = true) :
    (reproject_api concreteBackend crsParses ⟨fs0, []⟩
       ⟨some ⟨fname1, .zip (bundleEntries base1 g1)⟩, some t, host1⟩).1
      = ((.ok "Shapefile re-projected successfully"
          (host1 ++ "download_file/" ++ ("reprojected_" ++ stripColons t ++ ".zip"))), 200) ∧
    (reproject_api concreteBackend crsParses
       (reproject_api concreteBackend crsParses ⟨fs0, []⟩
         ⟨some ⟨fname1, .zip (bundleEntries base1 g1)⟩, some t, host1⟩).2
       ⟨some ⟨fname2, .zip (bundleEntries base2 g2)⟩, some t, host2⟩).1
      = ((.ok "Shapefile re-projected successfully"
          (host2 ++ "download_file/" ++ ("reprojected_" ++ stripColons t ++ ".zip"))), 200) ∧
    (reproject_api concreteBackend crsParses
       (reproject_api concreteBackend crsParses ⟨fs0, []⟩
         ⟨some ⟨fname1, .zip (bundleEntries base1 g1)⟩, some t, host1⟩).2
       ⟨some ⟨fname2, .zip (bundleEntries base2 g2)⟩, some t, host2⟩).2.store
      = [("reprojected_" ++ stripColons t ++ ".zip",
          ⟨Path.sub (.scratch (fs0.next + 5)) ("reprojected_" ++ stripColons t ++ ".zip"),
           [.scratch (fs0.next + 3), .scratch (fs0.next + 4), .scratch (fs0.next + 5)]⟩)] ∧
    (∀ d ∈ [Path.scratch fs0.next, Path.scratch (fs0.next + 1), Path.scratch (fs0.next + 2)],
       d ∈ (reproject_api concreteBackend crsParses
         (reproject_api concreteBackend crsParses ⟨fs0, []⟩
           ⟨some ⟨fname1, .zip (bundleEntries base1 g1)⟩, some t, host1⟩).2
         ⟨some ⟨fname2, .zip (bundleEntries base2 g2)⟩, some t, host2⟩).2.fs.dirs ∧
       ∀ r ∈ (reproject_api concreteBackend crsParses
         (reproject_api concreteBackend crsParses ⟨fs0, []⟩
           ⟨some ⟨fname1, .zip (bundleEntries base1 g1)⟩, some t, host1⟩).2
         ⟨some ⟨fname2, .zip (bundleEntries base2 g2)⟩, some t, host2⟩).2.store,
         d ∉ r.2.temp_dirs) := by
  rw [upload_success fs0 [] crsParses fname1 base1 host1 t src1 g1 hwf hne1 hfz1 ht hcrs hsrc1
    (flatStem_not_dots hb1)]
  dsimp only
  rw [upload_success _ _ crsParses fname2 base2 host2 t src2 g2
    (happy_fs_wf fs0 fname1 base1 t g1 hwf) hne2 hfz2 ht hcrs hsrc2 (flatStem_not_dots hb2)]
  dsimp only
  refine ⟨rfl, rfl, ?_, ?_⟩
  · rw [storeInsert, storeInsert]
    simp
  · intro d hd
    constructor
    · fin_cases hd <;> simp
    · intro r hr
      rw [storeInsert, storeInsert] at hr
      simp only [List.filter_cons, List.filter_nil] at hr
      fin_cases hd <;>
        · simp at hr
          rw [hr]
          dsimp only
          simp only [List.mem_cons, List.not_mem_nil, or_false, Path.scratch.injEq]
          intro hc
          omega


/-- C9 witness: two concrete uploads targeting EPSG:3857. -/
theorem C9_witness :
    ((reproject_api concreteBackend (fun s => decide (s = "EPSG:3857")) ⟨⟨[], [], 0⟩, []⟩
       ⟨some ⟨"one.zip", .zip (bundleEntries "a" ⟨some "EPSG:4326", 1⟩)⟩,
        some "EPSG:3857", "http://h1/"⟩).1
      = ((.ok "Shapefile re-projected successfully"
          ("http://h1/" ++ "download_file/" ++ ("reprojected_" ++ stripColons "EPSG:3857" ++ ".zip"))), 200)) ∧
    ((reproject_api concreteBackend (fun s => decide (s = "EPSG:3857"))
       (reproject_api concreteBackend (fun s => decide (s = "EPSG:3857")) ⟨⟨[], [], 0⟩, []⟩
         ⟨some ⟨"one.zip", .zip (bundleEntries "a" ⟨some "EPSG:4326", 1⟩)⟩,
          some "EPSG:3857", "http://h1/"⟩).2
       ⟨some ⟨"two.zip", .zip (bundleEntries "b" ⟨some "EPSG:32633", 2⟩)⟩,
        some "EPSG:3857", "http://h2/"⟩).1
      = ((.ok "Shapefile re-projected successfully"
          ("http://h2/" ++ "download_file/" ++ ("reprojected_" ++ stripColons "EPSG:3857" ++ ".zip"))), 200)) ∧
    ((reproject_api concreteBackend (fun s => decide (s = "EPSG:3857"))
       (reproject_api concreteBackend (fun s => decide (s = "EPSG:3857")) ⟨⟨[], [], 0⟩, []⟩
         ⟨some ⟨"one.zip", .zip (bundleEntries "a" ⟨some "EPSG:4326", 1⟩)⟩,
          some "EPSG:3857", "http://h1/"⟩).2
       ⟨some ⟨"two.zip", .zip (bundleEntries "b" ⟨some "EPSG:32633", 2⟩)⟩,
        some "EPSG:3857", "http://h2/"⟩).2.store
      = [("reprojected_" ++ stripColons "EPSG:3857" ++ ".zip",
          ⟨Path.sub (.scratch (0 + 5)) ("reprojected_" ++ stripColons "EPSG:3857" ++ ".zip"),
           [.scratch (0 + 3), .scratch (0 + 4), .scratch (0 + 5)]⟩)]) ∧
    (∀ d ∈ [Path.scratch 0, Path.scratch (0 + 1), Path.scratch (0 + 2)],
       d ∈ (reproject_api concreteBackend (fun s => decide (s = "EPSG:3857"))
         (reproject_api concreteBackend (fun s => decide (s = "EPSG:3857")) ⟨⟨[], [], 0⟩, []⟩
           ⟨some ⟨"one.zip", .zip (bundleEntries "a" ⟨some "EPSG:4326", 1⟩)⟩,
            some "EPSG:3857", "http://h1/"⟩).2
         ⟨some ⟨"two.zip", .zip (bundleEntries "b" ⟨some "EPSG:32633", 2⟩)⟩,
          some "EPSG:3857", "http://h2/"⟩).2.fs.dirs ∧
       ∀ r ∈ (reproject_api concreteBackend (fun s => decide (s = "EPSG:3857"))
         (reproject_api concreteBackend (fun s => decide (s = "EPSG:3857")) ⟨⟨[], [], 0⟩, []⟩
           ⟨some ⟨"one.zip", .zip (bundleEntries "a" ⟨some "EPSG:4326", 1⟩)⟩,
            some "EPSG:3857", "http://h1/"⟩).2
         ⟨some ⟨"two.zip", .zip (bundleEntries "b" ⟨some "EPSG:32633", 2⟩)⟩,
          some "EPSG:3857", "http://h2/"⟩).2.store,
         d ∉ r.2.temp_dirs) :=
  C9_same_target_id_collision ⟨[], [], 0⟩ (fun s => decide (s = "EPSG:3857"))
    "one.zip" "a" "EPSG:4326" "two.zip" "b" "EPSG:32633" "http://h1/" "http://h2/"
    "EPSG:3857" ⟨some "EPSG:4326", 1⟩ ⟨some "EPSG:32633", 2⟩
    (by decide) (by decide) (by decide) (by decide) (by decide) (by decide) (by decide)
    rfl rfl (by decide) (by decide)

/-- C4: a registered identifier whose file exists downloads once with
HTTP 200 streaming the archive; the response's completion consumes the
record, so the same identifier immediately 404s on the next request —
single-use semantics, no time-based expiry. -/
theorem C4_download_is_single_use (st : ServerState) (fid : String) (rec : TransferRecord)
    (h1 : storeLookup st.store fid = some rec)
    (h2 : st.fs.pathExists rec.path = true) :
    (download_file st fid).1 = (.file rec.path (st.fs.findFile rec.path), 200) ∧
    (download_file (download_file st fid).2 fid).1
      = (.err "File not found or has expired", 404) := by
  rw [download_file, h1]
  dsimp only
  rw [h2]
  simp only [Bool.not_true, Bool.false_eq_true, if_false]
  constructor
  · trivial
  · rw [download_file]
    dsimp only
    rw [storeLookup_erase]

/-- C4 witness: a concrete registered file downloaded twice. -/
theorem C4_witness :
    (download_file ⟨⟨[(Path.given "f.zip", .plain)], [.scratch 0], 1⟩,
       [("id1", ⟨Path.given "f.zip", [.scratch 0]⟩)]⟩ "id1").1
      = (.file (Path.given "f.zip")
          (FS.findFile ⟨[(Path.given "f.zip", .plain)], [.scratch 0], 1⟩ (Path.given "f.zip")),
         200) ∧
    (download_file (download_file ⟨⟨[(Path.given "f.zip", .plain)], [.scratch 0], 1⟩,
       [("id1", ⟨Path.given "f.zip", [.scratch 0]⟩)]⟩ "id1").2 "id1").1
      = (.err "File not found or has expired", 404) :=
  C4_download_is_single_use
    ⟨⟨[(Path.given "f.zip", .plain)], [.scratch 0], 1⟩,
     [("id1", ⟨Path.given "f.zip", [.scratch 0]⟩)]⟩ "id1"
    ⟨Path.given "f.zip", [.scratch 0]⟩ (by rfl) (by rfl)

/-- C10 (implicit): when deleting the record's scratch directories raises
(here: the first directory in the list no longer exists, so `rmtree` fails
and the loop aborts), the error is caught, the registry entry is still
removed, and later requests for the identifier get 404 — even though later
directories in the list remain on disk. -/
theorem C10_cleanup_error_entry_still_removed (st : ServerState) (fid : String)
    (rec : TransferRecord) (d1 d2 : Path) (rest : List Path)
    (h1 : storeLookup st.store fid = some rec)
    (h2 : st.fs.pathExists rec.path = true)
    (hdirs : rec.temp_dirs = d1 :: d2 :: rest)
    (h3 : st.fs.dirExists d1 = false)
    (h4 : st.fs.dirExists d2 = true) :
    (download_file st fid).1.2 = 200 ∧
    storeLookup (download_file st fid).2.store fid = none ∧
    (download_file st fid).2.fs.dirExists d2 = true ∧
    (download_file (download_file st fid).2 fid).1
      = (.err "File not found or has expired", 404) := by
  rw [download_file, h1]
  dsimp only
  rw [h2]
  simp only [Bool.not_true, Bool.false_eq_true, if_false]
  have hcd : cleanup_dirs st.fs rec.temp_dirs = st.fs := by
    rw [hdirs, cleanup_dirs, h3]
    simp
  refine ⟨trivial, storeLookup_erase _ _, ?_, ?_⟩
  · rw [hcd]
    exact h4
  · rw [download_file]
    dsimp only
    rw [storeLookup_erase]

/-- C10 witness: a record whose first scratch directory is already gone. -/
theorem C10_witness :
    (download_file ⟨⟨[(Path.given "f.zip", .plain)], [.scratch 1], 2⟩,
       [("id1", ⟨Path.given "f.zip", [.scratch 0, .scratch 1]⟩)]⟩ "id1").1.2 = 200 ∧
    storeLookup (download_file ⟨⟨[(Path.given "f.zip", .plain)], [.scratch 1], 2⟩,
       [("id1", ⟨Path.given "f.zip", [.scratch 0, .scratch 1]⟩)]⟩ "id1").2.store "id1" = none ∧
    (download_file ⟨⟨[(Path.given "f.zip", .plain)], [.scratch 1], 2⟩,
       [("id1", ⟨Path.given "f.zip", [.scratch 0, .scratch 1]⟩)]⟩ "id1").2.fs.dirExists
       (.scratch 1) = true ∧
    (download_file (download_file ⟨⟨[(Path.given "f.zip", .plain)], [.scratch 1], 2⟩,
       [("id1", ⟨Path.given "f.zip", [.scratch 0, .scratch 1]⟩)]⟩ "id1").2 "id1").1
      = (.err "File not found or has expired", 404) :=
  C10_cleanup_error_entry_still_removed
    ⟨⟨[(Path.given "f.zip", .plain)], [.scratch 1], 2⟩,
     [("id1", ⟨Path.given "f.zip", [.scratch 0, .scratch 1]⟩)]⟩ "id1"
    ⟨Path.given "f.zip", [.scratch 0, .scratch 1]⟩ (.scratch 0) (.scratch 1) []
    (by rfl) (by rfl) (by rfl) (by rfl) (by rfl)


/-- C3 witness: an archive with a.shp and a.shx only — the error message
names both .dbf and .prj. -/
theorem C3_witness :
    (check_shapefile_completeness
       ⟨[(Path.given "in.zip", .zip (("a" ++ ".shp", .geo ⟨some "EPSG:4326", 0⟩)
          :: [("a" ++ ".shx", File.plain)]))], [], 0⟩
       (Path.given "in.zip")).1
      = .error (.fileNotFoundError ("Incomplete shapefile. Missing: "
          ++ String.intercalate ", " (missingSidecars "a" [("a" ++ ".shx", File.plain)]))) :=
  C3_missing_sidecars_all_enumerated
    ⟨[(Path.given "in.zip", .zip (("a" ++ ".shp", .geo ⟨some "EPSG:4326", 0⟩)
       :: [("a" ++ ".shx", File.plain)]))], [], 0⟩
    (Path.given "in.zip") "a" ⟨some "EPSG:4326", 0⟩ [("a" ++ ".shx", File.plain)]
    (by decide) (by decide) rfl (by decide) (by decide) (by decide)

end TransformationTool
